import Mathlib

/-!
Verification of the ts1 HTTP/2 client-fingerprinting library against its
specification.

The development shallowly embeds the three Python source files:

* `signature.py` — `BytesJSONEncoder`, `Signature.canonicalize` (JSON encoding
  of `to_dict()` with `sort_keys=True`, `separators=(", ", ": ")`, bytes as
  base64) and `Signature.hash` (SHA-1 of the canonical form's UTF-8 bytes);
* `http2.py` — the frame model (`HTTP2FrameSignature` and its four registered
  subclasses), `to_dict` / `from_dict` serialization, and `HTTP2Signature`;
* `utils.py` — `NghttpdLogParser`, the nghttpd-log trace extractor.

Python values that flow through the dynamically-typed (de)serialization code
are modelled by the inductive type `PyVal`; frame objects built through the
typed constructor signatures are modelled by the inductive type `Frame`.
Machine-level details (SHA-1) use `Nat` with explicit `% 2 ^ 32` wrap-around.
-/

/-! ## Python value model

A `PyVal` is a Python value as it appears in the (de)serialization layer of
the library: `None`, booleans, ints, strings, `bytes`, lists, tuples, and
string-keyed dicts (a dict is its field list in insertion order, matching
Python's insertion-ordered dicts).  Nested container values are stored
inline. -/

inductive PyVal where
  | vnone : PyVal
  | vbool (b : Bool) : PyVal
  | vint (n : Int) : PyVal
  | vstr (s : String) : PyVal
  | vbytes (bs : List Nat) : PyVal
  | vlist (xs : List PyVal) : PyVal
  | vtuple (xs : List PyVal) : PyVal
  | vdict (fs : List (String × PyVal)) : PyVal

mutual

/-- Structural (Python `==` style) equality test on `PyVal`, used only to
build the `DecidableEq` instance.  Lean-level equality of `PyVal` terms is
the notion of "field-for-field identical" used throughout. -/
def pyBeq : PyVal → PyVal → Bool
  | .vnone, .vnone => true
  | .vbool a, .vbool b => a == b
  | .vint a, .vint b => a == b
  | .vstr a, .vstr b => a == b
  | .vbytes a, .vbytes b => a == b
  | .vlist a, .vlist b => pyBeqList a b
  | .vtuple a, .vtuple b => pyBeqList a b
  | .vdict a, .vdict b => pyBeqFields a b
  | _, _ => false

/-- Pointwise `pyBeq` on lists of values. -/
def pyBeqList : List PyVal → List PyVal → Bool
  | [], [] => true
  | x :: xs, y :: ys => pyBeq x y && pyBeqList xs ys
  | _, _ => false

/-- Pointwise `pyBeq` on dict field lists. -/
def pyBeqFields : List (String × PyVal) → List (String × PyVal) → Bool
  | [], [] => true
  | (k1, v1) :: xs, (k2, v2) :: ys => k1 == k2 && pyBeq v1 v2 && pyBeqFields xs ys
  | _, _ => false

end

/-! ## JSON encoder

Embedding of `BytesJSONEncoder(sort_keys=True, indent=None,
separators=(", ", ": ")).encode`, i.e. Python's `json` encoder with its
default `ensure_ascii=True`, plus the `default` hook that encodes `bytes`
values in base64 (signature.py lines 6–16 and 48–52).  The encoder works on
`List Char`; `canonicalize` wraps the result back into a `String`. -/

/-- Decimal digit character (`0`–`9`). -/
def digitChar (d : Nat) : Char := Char.ofNat (48 + d)

/-- Decimal representation of a natural number, fuelled so that the
definition is structurally recursive (the fuel is always sufficient). -/
def natCharsAux : Nat → Nat → List Char
  | 0, _ => []
  | fuel + 1, n => if n < 10 then [digitChar n] else natCharsAux fuel (n / 10) ++ [digitChar (n % 10)]

/-- Decimal representation of a natural number, as Python's `repr`. -/
def natChars (n : Nat) : List Char := natCharsAux (n + 1) n

/-- Python `repr` of an int: decimal digits with a leading `-` when
negative. -/
def intChars (n : Int) : List Char :=
  if n < 0 then '-' :: natChars (-n).toNat else natChars n.toNat

/-- Lowercase hexadecimal digit character, as produced by Python's
`"\\u%04x"` formatting. -/
def hexDigitChar (d : Nat) : Char :=
  if d < 10 then Char.ofNat (48 + d) else Char.ofNat (87 + d)

/-- Four lowercase hex digits of a code unit `n < 0x10000`. -/
def hex4 (n : Nat) : List Char :=
  [hexDigitChar (n / 4096 % 16), hexDigitChar (n / 256 % 16),
   hexDigitChar (n / 16 % 16), hexDigitChar (n % 16)]

/-- Escape of one character in a JSON string, following CPython's
`py_encode_basestring_ascii` (`ensure_ascii=True`): backslash and quote are
escaped, the control shortcuts `\b \f \n \r \t` apply, printable ASCII
(0x20–0x7e) passes through, everything else becomes `\uXXXX`, with
surrogate pairs for code points above 0xFFFF. -/
def escChar (c : Char) : List Char :=
  if c = '\\' then ['\\', '\\']
  else if c = '"' then ['\\', '"']
  else if c = Char.ofNat 8 then ['\\', 'b']
  else if c = Char.ofNat 12 then ['\\', 'f']
  else if c = Char.ofNat 10 then ['\\', 'n']
  else if c = Char.ofNat 13 then ['\\', 'r']
  else if c = Char.ofNat 9 then ['\\', 't']
  else if 0x20 ≤ c.toNat ∧ c.toNat < 0x7f then [c]
  else if c.toNat < 0x10000 then '\\' :: 'u' :: hex4 c.toNat
  else
    '\\' :: 'u' :: hex4 (0xd800 + (c.toNat - 0x10000) / 0x400) ++
      ('\\' :: 'u' :: hex4 (0xdc00 + (c.toNat - 0x10000) % 0x400))

/-- JSON encoding of a string: the escaped characters between quotes. -/
def encStrChars (s : String) : List Char :=
  '"' :: (s.data.map escChar).flatten ++ ['"']

/-- Character `n` of the standard base64 alphabet. -/
def b64Char (n : Nat) : Char :=
  if n < 26 then Char.ofNat (65 + n)
  else if n < 52 then Char.ofNat (97 + (n - 26))
  else if n < 62 then Char.ofNat (48 + (n - 52))
  else if n = 62 then '+' else '/'

/-- Standard base64 of a byte list with `=` padding, as
`base64.b64encode` (signature.py line 14). -/
def b64Encode : List Nat → List Char
  | [] => []
  | [a] => [b64Char (a / 4), b64Char (a % 4 * 16), '=', '=']
  | [a, b] => [b64Char (a / 4), b64Char (a % 4 * 16 + b / 16), b64Char (b % 16 * 4), '=']
  | a :: b :: c :: rest =>
    [b64Char (a / 4), b64Char (a % 4 * 16 + b / 16), b64Char (b % 16 * 4 + c / 64),
     b64Char (c % 64)] ++ b64Encode rest

/-- Code-point comparison of character lists, the order Python uses to
compare `str` values (and hence to sort dict keys under `sort_keys=True`). -/
def charListLeB : List Char → List Char → Bool
  | [], _ => true
  | _ :: _, [] => false
  | a :: as, b :: bs =>
    if a.toNat < b.toNat then true
    else if b.toNat < a.toNat then false
    else charListLeB as bs

/-- Python string `<=` on code points. -/
def strLeB (a b : String) : Bool := charListLeB a.data b.data

/-- Key order on (key, encoded value) pairs. -/
def pairLe (a b : String × List Char) : Prop := strLeB a.1 b.1 = true

instance : DecidableRel pairLe := fun a b => by unfold pairLe; infer_instance

/-- Stable sort of (key, encoded value) pairs by key, modelling the
`sort_keys=True` ordering of `json.dumps` (Python's sort is stable; real
dicts never carry duplicate keys). -/
def sortPairs (kvs : List (String × List Char)) : List (String × List Char) :=
  List.insertionSort pairLe kvs

/-- Key order on dict fields (used by `canonValue`). -/
def fieldLe (a b : String × PyVal) : Prop := strLeB a.1 b.1 = true

instance : DecidableRel fieldLe := fun a b => by unfold fieldLe; infer_instance

/-- Stable sort of dict fields by key. -/
def sortFields (fs : List (String × PyVal)) : List (String × PyVal) :=
  List.insertionSort fieldLe fs

/-- Join encoded items with the `", "` item separator of
`separators=(", ", ": ")`. -/
def joinSep (sep : List Char) : List (List Char) → List Char
  | [] => []
  | [x] => x
  | x :: xs => x ++ sep ++ joinSep sep xs

/-- Item separator `", "`. -/
def commaSp : List Char := [',', ' ']

/-- Key/value separator `": "`. -/
def colonSp : List Char := [':', ' ']

/-- Encoded dict body: each (key, encoded value) pair sorted by key and
rendered `"key": value` between braces.  Sorting the pairs after encoding
the values is output-identical to Python's sort-then-encode, because the
sort compares keys only; it keeps the recursion structural. -/
def encDictBody (kvs : List (String × List Char)) : List Char :=
  Char.ofNat 123 ::
    (joinSep commaSp ((sortPairs kvs).map (fun kv => encStrChars kv.1 ++ colonSp ++ kv.2)) ++
      [Char.ofNat 125])

mutual

/-- The canonical JSON encoding of a Python value:
`BytesJSONEncoder(sort_keys=True, indent=None, separators=(", ", ": ")).encode`
(signature.py lines 48–52).  Tuples encode exactly like lists, `bytes`
through base64, and dict keys are sorted lexicographically. -/
def pyEncode : PyVal → List Char
  | .vnone => "null".data
  | .vbool b => if b then "true".data else "false".data
  | .vint n => intChars n
  | .vstr s => encStrChars s
  | .vbytes bs => '"' :: b64Encode bs ++ ['"']
  | .vlist xs => '[' :: (joinSep commaSp (pyEncodeList xs) ++ [']'])
  | .vtuple xs => '[' :: (joinSep commaSp (pyEncodeList xs) ++ [']'])
  | .vdict fs => encDictBody (pyEncodeFields fs)

/-- Encodings of the items of a list, in order. -/
def pyEncodeList : List PyVal → List (List Char)
  | [] => []
  | x :: xs => pyEncode x :: pyEncodeList xs

/-- Each dict field paired with the encoding of its value, in field order. -/
def pyEncodeFields : List (String × PyVal) → List (String × List Char)
  | [] => []
  | (k, v) :: rest => (k, pyEncode v) :: pyEncodeFields rest

end

mutual

/-- Canonical form of a Python value: every dict's field list sorted by key
(recursively), everything else untouched.  Two values have the same
`canonValue` exactly when they are the same logical content up to the
insertion order of dict fields. -/
def canonValue : PyVal → PyVal
  | .vnone => .vnone
  | .vbool b => .vbool b
  | .vint n => .vint n
  | .vstr s => .vstr s
  | .vbytes bs => .vbytes bs
  | .vlist xs => .vlist (canonValueList xs)
  | .vtuple xs => .vtuple (canonValueList xs)
  | .vdict fs => .vdict (sortFields (canonValueFields fs))

/-- `canonValue` mapped over list items. -/
def canonValueList : List PyVal → List PyVal
  | [] => []
  | x :: xs => canonValue x :: canonValueList xs

/-- `canonValue` mapped over dict field values. -/
def canonValueFields : List (String × PyVal) → List (String × PyVal)
  | [] => []
  | (k, v) :: rest => (k, canonValue v) :: canonValueFields rest

end

/-! ## Typed frame model (http2.py)

`Frame` models the state of an `HTTP2FrameSignature` object built through
the constructor signatures declared in http2.py: every subclass stores its
`frame_type` (fixed per class), a `stream_id` (an int, or `None` when the
record it was decoded from had no `"stream_id"` key), and its type-specific
payload.  `Frame.other` is a direct instance of the base class
`HTTP2FrameSignature` itself, whose `frame_type` is arbitrary.

A `SettingEntry` is one element of `HTTP2SettingsFrame.settings` after the
constructor's normalization: either a still-valid `{"id": k, "value": v}`
pair of ints, or the normalized `{"id": "GREASE", "value": "GREASE"}`. -/

inductive SettingEntry where
  | valid (id : Int) (value : Int) : SettingEntry
  | grease : SettingEntry
deriving DecidableEq

inductive Frame where
  | settings (stream_id : Option Int) (sts : List SettingEntry) : Frame
  | windowUpdate (stream_id : Option Int) (window_size_increment : Int) : Frame
  | headers (stream_id : Option Int) (pseudo_headers : List String) : Frame
  | priority (stream_id : Option Int) (dep_stream_id : Int) (weight : Int)
      (exclusive : Bool) : Frame
  | other (frame_type : String) (stream_id : Option Int) : Frame
deriving DecidableEq

/-- The `"stream_id"` field of `HTTP2FrameSignature.to_dict`, present only
when `self.stream_id is not None` (http2.py lines 26–27). -/
def sidFields : Option Int → List (String × PyVal)
  | some n => [("stream_id", .vint n)]
  | none => []

/-- Dict form of one stored settings entry (http2.py lines 62–65). -/
def entryToDict : SettingEntry → PyVal
  | .valid k v => .vdict [("id", .vint k), ("value", .vint v)]
  | .grease => .vdict [("id", .vstr "GREASE"), ("value", .vstr "GREASE")]

/-- Embedding of the `to_dict` methods of `HTTP2FrameSignature` and its four
subclasses (http2.py lines 22–28, 67–70, 85–88, 103–106, 129–132): the base
dict `{"frame_type": ..., "stream_id": ...}` extended with the subclass's
payload key, in insertion order. -/
def frameToDict : Frame → PyVal
  | .settings sid sts =>
    .vdict ([("frame_type", .vstr "SETTINGS")] ++ sidFields sid ++
      [("settings", .vlist (sts.map entryToDict))])
  | .windowUpdate sid w =>
    .vdict ([("frame_type", .vstr "WINDOW_UPDATE")] ++ sidFields sid ++
      [("window_size_increment", .vint w)])
  | .headers sid ph =>
    .vdict ([("frame_type", .vstr "HEADERS")] ++ sidFields sid ++
      [("pseudo_headers", .vlist (ph.map PyVal.vstr))])
  | .priority sid d w e =>
    .vdict ([("frame_type", .vstr "PRIORITY")] ++ sidFields sid ++
      [("priority", .vdict [("dep_stream_id", .vint d), ("weight", .vint w),
        ("exclusive", .vbool e)])])
  | .other ft sid => .vdict ([("frame_type", .vstr ft)] ++ sidFields sid)

/-- An `HTTP2Signature` object: the ordered list of frames it wraps
(http2.py lines 157–170). -/
structure HTTP2Signature where
  frames : List Frame
deriving DecidableEq

/-- `HTTP2Signature.to_dict` (http2.py lines 172–176). -/
def sigToDict (s : HTTP2Signature) : PyVal :=
  .vdict [("frames", .vlist (s.frames.map frameToDict))]

/-- `Signature.canonicalize` (signature.py lines 37–52): the sorted-keys
JSON encoding of `to_dict()`. -/
def HTTP2Signature.canonicalize (s : HTTP2Signature) : String :=
  String.mk (pyEncode (sigToDict s))

/-! ## SHA-1 (hashlib.sha1)

`Signature.hash` is `hashlib.sha1` of the canonical form's UTF-8 encoding
(signature.py line 65).  SHA-1 is modelled from the standard (FIPS 180) on
`Nat` bytes and words, with explicit `% 2 ^ 32` wrap-around; the block loop
is fuelled with the exact block count so the definition stays structurally
recursive. -/

/-- UTF-8 bytes of one character. -/
def utf8Char (c : Char) : List Nat :=
  let n := c.toNat
  if n < 0x80 then [n]
  else if n < 0x800 then [0xc0 + n / 0x40, 0x80 + n % 0x40]
  else if n < 0x10000 then [0xe0 + n / 0x1000, 0x80 + n / 0x40 % 0x40, 0x80 + n % 0x40]
  else [0xf0 + n / 0x40000, 0x80 + n / 0x1000 % 0x40, 0x80 + n / 0x40 % 0x40, 0x80 + n % 0x40]

/-- UTF-8 encoding of a string (Python `str.encode("utf-8")`). -/
def utf8Encode (s : String) : List Nat := (s.data.map utf8Char).flatten

/-- Truncation to a 32-bit word. -/
def w32 (n : Nat) : Nat := n % 2 ^ 32

/-- Left rotation of a 32-bit word by `k` bits. -/
def rotl (k n : Nat) : Nat := w32 (w32 n * 2 ^ k) ||| (w32 n / 2 ^ (32 - k))

/-- Bitwise complement of a 32-bit word. -/
def wNot (n : Nat) : Nat := 2 ^ 32 - 1 - w32 n

/-- SHA-1 message padding: `0x80`, zeros to 56 mod 64, then the bit length
as eight big-endian bytes. -/
def sha1Pad (msg : List Nat) : List Nat :=
  let L := msg.length
  let z := (119 - L % 64) % 64
  let bits := 8 * L
  msg ++ 0x80 :: List.replicate z 0 ++
    [bits / 2 ^ 56 % 256, bits / 2 ^ 48 % 256, bits / 2 ^ 40 % 256, bits / 2 ^ 32 % 256,
     bits / 2 ^ 24 % 256, bits / 2 ^ 16 % 256, bits / 2 ^ 8 % 256, bits % 256]

/-- Big-endian 32-bit words of a 64-byte block, fuelled (16 words). -/
def blockWords : Nat → List Nat → List Nat
  | 0, _ => []
  | k + 1, b0 :: b1 :: b2 :: b3 :: rest =>
    (b0 * 2 ^ 24 + b1 * 2 ^ 16 + b2 * 2 ^ 8 + b3) :: blockWords k rest
  | _ + 1, _ => []

/-- Message-schedule extension: appends words 16–79, fuelled with the
remaining count. -/
def sha1Extend : Nat → List Nat → List Nat
  | 0, w => w
  | k + 1, w =>
    let m := w.length
    sha1Extend k (w ++ [rotl 1 (((w.getD (m - 3) 0) ^^^ (w.getD (m - 8) 0)) ^^^
      ((w.getD (m - 14) 0) ^^^ (w.getD (m - 16) 0)))])

/-- Round function for round `t`. -/
def sha1F (t b c d : Nat) : Nat :=
  if t < 20 then (b &&& c) ||| (wNot b &&& d)
  else if t < 40 then (b ^^^ c) ^^^ d
  else if t < 60 then ((b &&& c) ||| (b &&& d)) ||| (c &&& d)
  else (b ^^^ c) ^^^ d

/-- Round constant for round `t`. -/
def sha1K (t : Nat) : Nat :=
  if t < 20 then 0x5a827999
  else if t < 40 then 0x6ed9eba1
  else if t < 60 then 0x8f1bbcdc
  else 0xca62c1d6

/-- The 80 compression rounds, fuelled with the remaining round count. -/
def sha1Rounds : Nat → Nat → List Nat → Nat × Nat × Nat × Nat × Nat →
    Nat × Nat × Nat × Nat × Nat
  | 0, _, _, st => st
  | k + 1, t, w, (a, b, c, d, e) =>
    sha1Rounds k (t + 1) w
      (w32 (rotl 5 a + sha1F t b c d + e + sha1K t + w.getD t 0), a, rotl 30 b, c, d)

/-- Compression of one 64-byte block into the running state. -/
def sha1Block (st : Nat × Nat × Nat × Nat × Nat) (block : List Nat) :
    Nat × Nat × Nat × Nat × Nat :=
  let w := sha1Extend 64 (blockWords 16 block)
  let (a, b, c, d, e) := sha1Rounds 80 0 w st
  let (h0, h1, h2, h3, h4) := st
  (w32 (h0 + a), w32 (h1 + b), w32 (h2 + c), w32 (h3 + d), w32 (h4 + e))

/-- Folds `sha1Block` over the blocks of a padded message, fuelled with the
block count. -/
def sha1Blocks : Nat → List Nat → Nat × Nat × Nat × Nat × Nat →
    Nat × Nat × Nat × Nat × Nat
  | 0, _, st => st
  | k + 1, bs, st => sha1Blocks k (bs.drop 64) (sha1Block st (bs.take 64))

/-- Big-endian bytes of one hash word. -/
def wordBytes (w : Nat) : List Nat :=
  [w / 2 ^ 24 % 256, w / 2 ^ 16 % 256, w / 2 ^ 8 % 256, w % 256]

/-- SHA-1 digest (20 bytes) of a byte message. -/
def sha1 (msg : List Nat) : List Nat :=
  let padded := sha1Pad msg
  let st := sha1Blocks (padded.length / 64) padded
    (0x67452301, 0xefcdab89, 0x98badcfe, 0x10325476, 0xc3d2e1f0)
  wordBytes st.1 ++ wordBytes st.2.1 ++ wordBytes st.2.2.1 ++
    wordBytes st.2.2.2.1 ++ wordBytes st.2.2.2.2

/-- `Signature.hash` (signature.py lines 54–65), read at the digest level:
the SHA-1 digest of the canonical form's UTF-8 bytes. -/
def HTTP2Signature.hash (s : HTTP2Signature) : List Nat :=
  sha1 (utf8Encode s.canonicalize)

/-! ## Dynamic record deserialization (http2.py from_dict)

`from_dict` receives an arbitrary structured record, so this layer works on
`PyVal` directly.  A `DynFrame` is the frame object `from_dict` builds, its
fields holding whatever values the record supplied (Python performs no type
check on them).  There is no `other` variant: for an unregistered
`frame_type`, line 42 of http2.py calls
`HTTP2FrameSignature(frame_type=frame_type)` without the required
`stream_id` argument, which raises `TypeError` before any object exists. -/

inductive PyErr where
  | keyError (k : String) : PyErr
  | typeErrorMissingStreamId : PyErr
  | typeErrorUnpack : PyErr
  | typeErrorKwargs : PyErr
  | typeErrorBadType : PyErr

inductive DynFrame where
  | settings (stream_id : PyVal) (sts : List (PyVal × PyVal)) : DynFrame
  | windowUpdate (stream_id : PyVal) (window_size_increment : PyVal) : DynFrame
  | headers (stream_id : PyVal) (pseudo_headers : PyVal) : DynFrame
  | priority (stream_id : PyVal) (dep_stream_id : PyVal) (weight : PyVal)
      (exclusive : PyVal) : DynFrame

/-- Python `d[k]` on a string-keyed dict: the value of the first matching
field, if any. -/
def dictGet? (fs : List (String × PyVal)) (k : String) : Option PyVal :=
  (fs.find? (fun kv => kv.1 == k)).map (fun kv => kv.2)

/-- Python `d.get(k)`: the value, or `None` when the key is absent. -/
def dictGetD (fs : List (String × PyVal)) (k : String) : PyVal :=
  (dictGet? fs k).getD .vnone

/-- Python `d.pop(k)`: the value together with the remaining fields in
order, or `none` (a `KeyError`) when the key is absent. -/
def dictPop? (fs : List (String × PyVal)) (k : String) :
    Option (PyVal × List (String × PyVal)) :=
  match dictGet? fs k with
  | none => none
  | some v => some (v, fs.eraseP (fun kv => kv.1 == k))

/-- Python iterable unpacking `(k, v) = x` for the value shapes that can
reach line 57 of http2.py: a two-element tuple or list unpacks to its
elements, a two-field dict to its keys (iterating a dict yields keys), a
two-character string to its characters.  Anything else raises a
`TypeError` or `ValueError`, collapsed here into one error. -/
def unpack2 : PyVal → Except PyErr (PyVal × PyVal)
  | .vtuple [a, b] => .ok (a, b)
  | .vlist [a, b] => .ok (a, b)
  | .vdict [(k1, _), (k2, _)] => .ok (.vstr k1, .vstr k2)
  | .vstr s =>
    match s.data with
    | [c1, c2] => .ok (.vstr (String.mk [c1]), .vstr (String.mk [c2]))
    | _ => .error .typeErrorUnpack
  | _ => .error .typeErrorUnpack

/-- Python `==` between a value and an int literal (`True == 1` and
`False == 0` hold, since bool is an int subclass).  This is the comparison
`k not in self.VALID_SETTINGS` performs against the members of
`VALID_SETTINGS`. -/
def pyEqInt (v : PyVal) (m : Int) : Bool :=
  match v with
  | .vint n => n == m
  | .vbool b => (if b then (1 : Int) else 0) == m
  | _ => false

/-- Python `==` between a value and a string literal, the comparison
`k == self.HTTP2_GREASE` performs. -/
def pyEqStr (v : PyVal) (t : String) : Bool :=
  match v with
  | .vstr s => s == t
  | _ => false

/-- `HTTP2SettingsFrame.VALID_SETTINGS` (http2.py line 52). -/
def VALID_SETTINGS : List Int := [1, 2, 3, 4, 5, 6]

/-- The body of the settings loop (http2.py lines 57–61): an id outside the
valid set becomes `"GREASE"`, and a `"GREASE"` id forces the value to
`"GREASE"` as well. -/
def normalizeSetting (kv : PyVal × PyVal) : PyVal × PyVal :=
  let k := if ¬ (VALID_SETTINGS.any (fun m => pyEqInt kv.1 m)) then PyVal.vstr "GREASE" else kv.1
  let v := if pyEqStr k "GREASE" then PyVal.vstr "GREASE" else kv.2
  (k, v)

/-- The whole settings loop of `HTTP2SettingsFrame.__init__` over the
dynamically-typed `settings` argument (http2.py lines 56–65): unpack each
element, normalize it, collect the `(id, value)` contents of the appended
`{"id": k, "value": v}` dicts. -/
def settingsInitDyn : List PyVal → Except PyErr (List (PyVal × PyVal))
  | [] => .ok []
  | x :: rest =>
    match unpack2 x with
    | .error e => .error e
    | .ok kv =>
      match settingsInitDyn rest with
      | .ok r => .ok (normalizeSetting kv :: r)
      | .error e => .error e

/-- The iterable behind `for (k, v) in settings`: a list or tuple yields its
elements; other values raise `TypeError`. -/
def settingsElems : PyVal → Except PyErr (List PyVal)
  | .vlist xs => .ok xs
  | .vtuple xs => .ok xs
  | _ => .error .typeErrorBadType

/-- `HTTP2SettingsFrame.from_dict` (http2.py lines 72–77) applied to the
already-popped field list: `stream_id=d.get("stream_id")`,
`settings=d["settings"]`, then the constructor. -/
def settingsFromDict (fs : List (String × PyVal)) : Except PyErr DynFrame :=
  match dictGet? fs "settings" with
  | none => .error (.keyError "settings")
  | some sv =>
    match settingsElems sv with
    | .error e => .error e
    | .ok elems =>
      match settingsInitDyn elems with
      | .error e => .error e
      | .ok sts => .ok (.settings (dictGetD fs "stream_id") sts)

/-- `HTTP2WindowUpdateFrame.from_dict` (http2.py lines 90–95). -/
def wuFromDict (fs : List (String × PyVal)) : Except PyErr DynFrame :=
  match dictGet? fs "window_size_increment" with
  | none => .error (.keyError "window_size_increment")
  | some w => .ok (.windowUpdate (dictGetD fs "stream_id") w)

/-- `HTTP2HeadersFrame.from_dict` (http2.py lines 108–113). -/
def headersFromDict (fs : List (String × PyVal)) : Except PyErr DynFrame :=
  match dictGet? fs "pseudo_headers" with
  | none => .error (.keyError "pseudo_headers")
  | some ph => .ok (.headers (dictGetD fs "stream_id") ph)

/-- `HTTP2PriorityFrame.from_dict` (http2.py lines 134–139):
`**d["priority"]` must bind exactly the keyword parameters
`dep_stream_id`, `weight` and `exclusive`; a missing or extra key raises
`TypeError`. -/
def priorityFromDict (fs : List (String × PyVal)) : Except PyErr DynFrame :=
  match dictGet? fs "priority" with
  | none => .error (.keyError "priority")
  | some pv =>
    match pv with
    | .vdict pfs =>
      match dictGet? pfs "dep_stream_id", dictGet? pfs "weight", dictGet? pfs "exclusive" with
      | some d, some w, some e =>
        if pfs.length = 3 then .ok (.priority (dictGetD fs "stream_id") d w e)
        else .error .typeErrorKwargs
      | _, _, _ => .error .typeErrorKwargs
    | _ => .error .typeErrorBadType

/-- The registry dispatch of `HTTP2FrameSignature.from_dict` after
`frame_type` has been popped (http2.py lines 39–42): the four registered
subclasses by exact string match; any other tag reaches
`HTTP2FrameSignature(frame_type=frame_type)`, which raises `TypeError`
because the required positional argument `stream_id` is missing. -/
def frameDispatch (ftv : PyVal) (fs2 : List (String × PyVal)) : Except PyErr DynFrame :=
  if pyEqStr ftv "SETTINGS" then settingsFromDict fs2
  else if pyEqStr ftv "WINDOW_UPDATE" then wuFromDict fs2
  else if pyEqStr ftv "HEADERS" then headersFromDict fs2
  else if pyEqStr ftv "PRIORITY" then priorityFromDict fs2
  else .error .typeErrorMissingStreamId

/-- `HTTP2FrameSignature.from_dict` (http2.py lines 30–42) as a pure
function of the record value: copy, pop `"frame_type"`, dispatch. -/
def fromDictVal (d : PyVal) : Except PyErr DynFrame :=
  match d with
  | .vdict fs =>
    match dictPop? fs "frame_type" with
    | none => .error (.keyError "frame_type")
    | some (ftv, fs2) => frameDispatch ftv fs2
  | _ => .error .typeErrorBadType

/-- The list comprehension of `HTTP2Signature.from_dict` (http2.py lines
193–197), left to right, stopping at the first error. -/
def framesFromVals : List PyVal → Except PyErr (List DynFrame)
  | [] => .ok []
  | v :: rest =>
    match fromDictVal v with
    | .error e => .error e
    | .ok f =>
      match framesFromVals rest with
      | .ok r => .ok (f :: r)
      | .error e => .error e

/-- `HTTP2Signature.from_dict` (http2.py lines 178–197) as a pure function
of the record value. -/
def sigFromDictVal (d : PyVal) : Except PyErr (List DynFrame) :=
  match d with
  | .vdict fs =>
    match dictGet? fs "frames" with
    | none => .error (.keyError "frames")
    | some (.vlist vs) => framesFromVals vs
    | some (.vtuple vs) => framesFromVals vs
    | some _ => .error .typeErrorBadType
  | _ => .error .typeErrorBadType

/-! ## Store model of from_dict (mutation of the input record)

To state that `from_dict` does not mutate its argument, dict objects are
given identities: a `PyStore` is a heap of dict values addressed by index,
and `d.copy()` / `d.pop(...)` act on the store.  Nested container values
stay inline within a referenced value, so preservation of a reference's
value covers all its nested structure. -/

/-- A heap of Python values addressed by list index. -/
abbrev PyStore := List PyVal

/-- The value at reference `i`. -/
def storeGet (st : PyStore) (i : Nat) : PyVal := List.getD st i .vnone

/-- `HTTP2FrameSignature.from_dict` acting on the record object at
reference `i` (http2.py lines 30–42): `d = d.copy()` allocates a fresh
reference holding the same value, `d.pop("frame_type")` writes to that
fresh reference only, and the registry dispatch merely reads it. -/
def fromDictRef (i : Nat) (st : PyStore) : Except PyErr DynFrame × PyStore :=
  let st1 : PyStore := st ++ [storeGet st i]
  let j := List.length st
  match storeGet st1 j with
  | .vdict fs =>
    match dictPop? fs "frame_type" with
    | none => (.error (.keyError "frame_type"), st1)
    | some (ftv, fs2) =>
      let st2 : PyStore := List.set st1 j (.vdict fs2)
      (frameDispatch ftv fs2, st2)
  | _ => (.error .typeErrorBadType, st1)

/-- Per-frame loop of `HTTP2Signature.from_dict` over consecutive
references `i, i+1, ...` (fuelled by the frame count). -/
def framesFromRefs (i : Nat) : Nat → PyStore → Except PyErr (List DynFrame) × PyStore
  | 0, st => (.ok [], st)
  | k + 1, st =>
    match fromDictRef i st with
    | (.error e, st2) => (.error e, st2)
    | (.ok f, st2) =>
      match framesFromRefs (i + 1) k st2 with
      | (.ok r, st3) => (.ok (f :: r), st3)
      | (.error e, st3) => (.error e, st3)

/-- `HTTP2Signature.from_dict` acting on the record object at reference
`i`: the nested frame dicts of `d["frames"]` are existing heap objects, so
each receives its own reference before the per-frame `from_dict` calls
(which copy them in turn). -/
def sigFromDictRef (i : Nat) (st : PyStore) : Except PyErr (List DynFrame) × PyStore :=
  match storeGet st i with
  | .vdict fs =>
    match dictGet? fs "frames" with
    | none => (.error (.keyError "frames"), st)
    | some (.vlist vs) => framesFromRefs (List.length st) vs.length (st ++ vs)
    | some _ => (.error .typeErrorBadType, st)
  | _ => (.error .typeErrorBadType, st)

/-- `HTTP2SettingsFrame.__init__` (http2.py lines 54–65) for arguments of
the annotated types (`stream_id: int`, `settings: List[Tuple]` of int
pairs): an id outside `VALID_SETTINGS` is normalized, with its value, to
`"GREASE"`; a valid id keeps its value. -/
def settingsFrameInit (stream_id : Option Int) (settings : List (Int × Int)) : Frame :=
  .settings stream_id (settings.map (fun kv =>
    if kv.1 ∈ VALID_SETTINGS then SettingEntry.valid kv.1 kv.2 else SettingEntry.grease))

/-! ## Trace extractor (utils.py NghttpdLogParser)

The parser walks the log lines with an explicit cursor.  Each regex of the
source is embedded as a matching function; `re.match` anchors at the start
of the line and allows trailing text, a greedy `.*` selects the last
position at which the remainder of the pattern matches, and a greedy
`\d+` or `[A-Z_]+` takes the maximal run.  Lines are taken from one shared
iterator; the body consumers report how many lines they consumed, and the
main loop advances the cursor past them (Python's `next(lines)` calls).
`StopIteration` on an exhausted iterator is caught by `parse` and re-raised
as the malformed-log error, so the consumers report that error directly. -/

/-- Decimal digit test (`\d` over these ASCII lines). -/
def isDigitChar (c : Char) : Bool := 48 ≤ c.toNat && c.toNat ≤ 57

/-- Character class `[A-Z_]`. -/
def isUpperUnderChar (c : Char) : Bool := (65 ≤ c.toNat && c.toNat ≤ 90) || c = '_'

/-- Character class `[a-z]`. -/
def isLowerChar (c : Char) : Bool := 97 ≤ c.toNat && c.toNat ≤ 122

/-- Python `\s` on the ASCII range. -/
def isSpaceChar (c : Char) : Bool :=
  c = ' ' || c = Char.ofNat 9 || c = Char.ofNat 10 || c = Char.ofNat 13 ||
    c = Char.ofNat 11 || c = Char.ofNat 12

/-- Consume an exact literal prefix. -/
def takeLit : List Char → List Char → Option (List Char)
  | [], rest => some rest
  | c :: cs, d :: ds => if c = d then takeLit cs ds else none
  | _ :: _, [] => none

/-- Value of a run of decimal digits (Python `int(...)`). -/
def digitsVal (ds : List Char) : Nat := ds.foldl (fun a c => a * 10 + (c.toNat - 48)) 0

/-- Value of a run of decimal digits read in base 16 (Python
`int(..., 16)` applied to a `(\d+)` group). -/
def digitsVal16 (ds : List Char) : Nat := ds.foldl (fun a c => a * 16 + (c.toNat - 48)) 0

/-- Maximal nonempty digit run and the rest (`(\d+)` followed by a
non-digit). -/
def takeDigits1 (cs : List Char) : Option (List Char × List Char) :=
  match cs.takeWhile (fun c => isDigitChar c) with
  | [] => none
  | ds => some (ds, cs.dropWhile (fun c => isDigitChar c))

/-- Generic greedy-`.*` search: the match of `f` at the latest possible
suffix of the input. -/
def lastMatch {α : Type} (f : List Char → Option α) : List Char → Option α
  | [] => f []
  | c :: rest =>
    match lastMatch f rest with
    | some r => some r
    | none => f (c :: rest)

/-- Embedding of `re.match(r"\s*\(niv=(\d+)\)", line)` (utils.py line 18). -/
def nivMatch (line : String) : Option Nat :=
  match takeLit "(niv=".data (line.data.dropWhile (fun c => isSpaceChar c)) with
  | none => none
  | some cs1 =>
    match takeDigits1 cs1 with
    | none => none
    | some (ds, cs2) =>
      match takeLit ")".data cs2 with
      | none => none
      | some _ => some (digitsVal ds)

/-- Embedding of `re.match(r"\s*\[[A-Z_]+\(0x(\d+)\):(\d+)\]", line)`
(utils.py line 24); the first group is read in base 16. -/
def settingMatch (line : String) : Option (Nat × Nat) :=
  match takeLit "[".data (line.data.dropWhile (fun c => isSpaceChar c)) with
  | none => none
  | some cs1 =>
    match cs1.takeWhile (fun c => isUpperUnderChar c) with
    | [] => none
    | _ =>
      match takeLit "(0x".data (cs1.dropWhile (fun c => isUpperUnderChar c)) with
      | none => none
      | some cs2 =>
        match takeDigits1 cs2 with
        | none => none
        | some (ks, cs3) =>
          match takeLit "):".data cs3 with
          | none => none
          | some cs4 =>
            match takeDigits1 cs4 with
            | none => none
            | some (vs, cs5) =>
              match takeLit "]".data cs5 with
              | none => none
              | some _ => some (digitsVal16 ks, digitsVal vs)

/-- Embedding of `re.match(r"\s*\(window_size_increment=(\d+)\)", line)`
(utils.py line 36). -/
def wsiMatch (line : String) : Option Nat :=
  match takeLit "(window_size_increment=".data (line.data.dropWhile (fun c => isSpaceChar c)) with
  | none => none
  | some cs1 =>
    match takeDigits1 cs1 with
    | none => none
    | some (ds, cs2) =>
      match takeLit ")".data cs2 with
      | none => none
      | some _ => some (digitsVal ds)

/-- Embedding of
`re.match(r"\s*\(dep_stream_id=(\d+), weight=(\d+), exclusive=(\d+)\)", line)`
(utils.py lines 59–62). -/
def priorityMatch (line : String) : Option (Nat × Nat × Nat) :=
  match takeLit "(dep_stream_id=".data (line.data.dropWhile (fun c => isSpaceChar c)) with
  | none => none
  | some cs1 =>
    match takeDigits1 cs1 with
    | none => none
    | some (ds, cs2) =>
      match takeLit ", weight=".data cs2 with
      | none => none
      | some cs3 =>
        match takeDigits1 cs3 with
        | none => none
        | some (ws, cs4) =>
          match takeLit ", exclusive=".data cs4 with
          | none => none
          | some cs5 =>
            match takeDigits1 cs5 with
            | none => none
            | some (es, cs6) =>
              match takeLit ")".data cs6 with
              | none => none
              | some _ => some (digitsVal ds, digitsVal ws, digitsVal es)

/-- Matches `recv ([A-Z_]+) frame` at the start of the input: the literal
`recv `, a maximal nonempty `[A-Z_]` run, then the literal ` frame`. -/
def recvFrameAt (cs : List Char) : Option (String × List Char) :=
  match takeLit "recv ".data cs with
  | none => none
  | some cs1 =>
    match cs1.takeWhile (fun c => isUpperUnderChar c) with
    | [] => none
    | run =>
      match takeLit " frame".data (cs1.dropWhile (fun c => isUpperUnderChar c)) with
      | none => none
      | some cs2 => some (String.mk run, cs2)

/-- Matches `stream_id=(\d+)` at the start of the input. -/
def streamIdAt (cs : List Char) : Option Nat :=
  match takeLit "stream_id=".data cs with
  | none => none
  | some cs1 =>
    match takeDigits1 cs1 with
    | none => none
    | some (ds, _) => some (digitsVal ds)

/-- Embedding of
`re.match(r"\[id=(\d+)\].*recv ([A-Z_]+) frame.*stream_id=(\d+)", line)`
(utils.py lines 85–88): anchored `[id=N]`, then the greedy `.*` pieces
resolved right-to-left by `lastMatch`. -/
def announceMatch (line : String) : Option (Nat × String × Nat) :=
  match takeLit "[id=".data line.data with
  | none => none
  | some cs1 =>
    match takeDigits1 cs1 with
    | none => none
    | some (ds, cs2) =>
      match takeLit "]".data cs2 with
      | none => none
      | some cs3 =>
        match lastMatch (fun suf =>
          match recvFrameAt suf with
          | none => none
          | some (ft, after) =>
            match lastMatch streamIdAt after with
            | none => none
            | some sid => some (ft, sid)) cs3 with
        | none => none
        | some (ft, sid) => some (digitsVal ds, ft, sid)

/-- Embedding of
`re.match(r".*recv \(stream_id={}\) (:[a-z]*?):".format(stream_id), line)`
(utils.py lines 49–52); the returned group is the pseudo-header name with
its leading colon. -/
def pseudoHeaderMatch (stream_id : Nat) (line : String) : Option String :=
  lastMatch (fun suf =>
    match takeLit ("recv (stream_id=".data ++ natChars stream_id ++ ") ".data) suf with
    | none => none
    | some cs1 =>
      match cs1 with
      | ':' :: cs2 =>
        match cs2.dropWhile (fun c => isLowerChar c) with
        | ':' :: _ => some (String.mk (':' :: cs2.takeWhile (fun c => isLowerChar c)))
        | _ => none
      | _ => none) line.data

/-- Errors of `NghttpdLogParser.parse`: the two explicit `raise` sites and
the `StopIteration` of an exhausted iterator, which `parse` re-raises as
"Malformed log: log ended unexpectedly" (utils.py lines 26, 38, 64, 115,
124–125). -/
inductive TraceErr where
  | unexpectedLine (line : String) : TraceErr
  | unknownFrameType (ft : String) : TraceErr
  | endedUnexpectedly : TraceErr
deriving DecidableEq

/-- The `while match is None` loop of `_process_settings_frame` (utils.py
lines 15–19): consume lines until one matches the `niv` pattern, returning
the count and the number of lines consumed; an exhausted iterator is the
malformed-log error. -/
def skipToNiv : List String → Except TraceErr (Nat × Nat)
  | [] => .error .endedUnexpectedly
  | l :: rest =>
    match nivMatch l with
    | some n => .ok (n, 1)
    | none =>
      match skipToNiv rest with
      | .ok (n, k) => .ok (n, k + 1)
      | .error e => .error e

/-- The `for i in range(niv)` loop of `_process_settings_frame` (utils.py
lines 21–30): read exactly `niv` parameter lines, each of which must match
the settings pattern. -/
def readSettings : Nat → List String → Except TraceErr (List (Nat × Nat) × Nat)
  | 0, _ => .ok ([], 0)
  | _ + 1, [] => .error .endedUnexpectedly
  | k + 1, l :: rest =>
    match settingMatch l with
    | none => .error (.unexpectedLine l)
    | some kv =>
      match readSettings k rest with
      | .ok (svs, m) => .ok (kv :: svs, m + 1)
      | .error e => .error e

/-- `_process_settings_frame` (utils.py lines 14–32): the settings pairs
and the total number of lines consumed. -/
def processSettingsFrame (lines : List String) : Except TraceErr (List (Nat × Nat) × Nat) :=
  match skipToNiv lines with
  | .error e => .error e
  | .ok (niv, k) =>
    match readSettings niv (lines.drop k) with
    | .ok (svs, m) => .ok (svs, k + m)
    | .error e => .error e

/-- `_process_window_update_frame` (utils.py lines 34–40): one line. -/
def processWindowUpdateFrame : List String → Except TraceErr Nat
  | [] => .error .endedUnexpectedly
  | l :: _ =>
    match wsiMatch l with
    | none => .error (.unexpectedLine l)
    | some n => .ok n

/-- `_process_priority_frame` (utils.py lines 57–69): one line. -/
def processPriorityFrame : List String → Except TraceErr (Nat × Nat × Nat)
  | [] => .error .endedUnexpectedly
  | l :: _ =>
    match priorityMatch l with
    | none => .error (.unexpectedLine l)
    | some dwe => .ok dwe

/-- `_process_headers_frame` (utils.py lines 42–55): the pseudo-header
groups of the buffered previous lines, in order. -/
def processHeadersFrame (previousLines : List String) (stream_id : Nat) : List String :=
  previousLines.filterMap (fun l => pseudoHeaderMatch stream_id l)

/-- The record built for a SETTINGS frame (utils.py lines 100–105): the
settings are a list of `(key, value)` tuples. -/
def settingsFrameDict (sid : Nat) (svs : List (Nat × Nat)) : PyVal :=
  .vdict [("frame_type", .vstr "SETTINGS"), ("stream_id", .vint sid),
    ("settings", .vlist (svs.map (fun kv => .vtuple [.vint kv.1, .vint kv.2])))]

/-- The record built for a WINDOW_UPDATE frame (utils.py lines 100–108). -/
def wuFrameDict (sid : Nat) (w : Nat) : PyVal :=
  .vdict [("frame_type", .vstr "WINDOW_UPDATE"), ("stream_id", .vint sid),
    ("window_size_increment", .vint w)]

/-- The record built for a HEADERS frame (utils.py lines 100–111). -/
def headersFrameDict (sid : Nat) (phs : List String) : PyVal :=
  .vdict [("frame_type", .vstr "HEADERS"), ("stream_id", .vint sid),
    ("pseudo_headers", .vlist (phs.map PyVal.vstr))]

/-- The record built for a PRIORITY frame (utils.py lines 100–113 and
65–69); `bool(int(g))` makes `exclusive` true exactly when the digits are
nonzero. -/
def priorityFrameDict (sid : Nat) (dwe : Nat × Nat × Nat) : PyVal :=
  .vdict [("frame_type", .vstr "PRIORITY"), ("stream_id", .vint sid),
    ("priority", .vdict [("dep_stream_id", .vint dwe.1), ("weight", .vint dwe.2.1),
      ("exclusive", .vbool (dwe.2.2 ≠ 0))])]

/-- `frames[client_id].append(frame)` on a `defaultdict(list)` whose items
keep first-insertion key order. -/
def appendFrame (frames : List (Nat × List PyVal)) (cid : Nat) (f : PyVal) :
    List (Nat × List PyVal) :=
  match frames with
  | [] => [(cid, [f])]
  | (c, fs) :: rest =>
    if c = cid then (c, fs ++ [f]) :: rest else (c, fs) :: appendFrame rest cid f

/-- The main loop of `NghttpdLogParser.parse` (utils.py lines 78–126).  The
loop consumes at least one line per iteration, so `lines.length` fuel never
runs out; `parseLoopF_fuel` below confirms the result does not depend on
the fuel.  A line that is no frame announcement joins the pending buffer; a
HEADERS frame is appended and the whole loop stops (the `break` at line
123); an unrecognized announced type is the fatal unknown-frame error. -/
def parseLoopF : Nat → List String → List (Nat × List PyVal) → List String →
    Except TraceErr (List (Nat × List PyVal))
  | _, [], frames, _ => .ok frames
  | 0, _ :: _, frames, _ => .ok frames
  | fuel + 1, line :: rest, frames, previousLines =>
    match announceMatch line with
    | none => parseLoopF fuel rest frames (previousLines ++ [line])
    | some (cid, ftype, sid) =>
      if ftype = "SETTINGS" then
        match processSettingsFrame rest with
        | .error e => .error e
        | .ok (svs, k) =>
          parseLoopF fuel (rest.drop k) (appendFrame frames cid (settingsFrameDict sid svs)) []
      else if ftype = "WINDOW_UPDATE" then
        match processWindowUpdateFrame rest with
        | .error e => .error e
        | .ok w =>
          parseLoopF fuel (rest.drop 1) (appendFrame frames cid (wuFrameDict sid w)) []
      else if ftype = "HEADERS" then
        .ok (appendFrame frames cid (headersFrameDict sid (processHeadersFrame previousLines sid)))
      else if ftype = "PRIORITY" then
        match processPriorityFrame rest with
        | .error e => .error e
        | .ok dwe =>
          parseLoopF fuel (rest.drop 1) (appendFrame frames cid (priorityFrameDict sid dwe)) []
      else .error (.unknownFrameType ftype)

/-- Python `str.splitlines` for newline-separated text (the trace lines
carry no other line boundary): split on `\n`, no trailing empty piece. -/
def splitLinesAux : List Char → List Char → List String
  | [], [] => []
  | [], acc => [String.mk acc.reverse]
  | c :: rest, acc =>
    if c = Char.ofNat 10 then String.mk acc.reverse :: splitLinesAux rest []
    else splitLinesAux rest (c :: acc)

/-- Python `str.splitlines` on the log text. -/
def splitLines (s : String) : List String := splitLinesAux s.data []

/-- `NghttpdLogParser(log).parse()` (utils.py lines 71–127): the per-client
frame records in first-appearance order, or the first error. -/
def nghttpdParse (log : String) : Except TraceErr (List (Nat × List PyVal)) :=
  parseLoopF (splitLines log).length (splitLines log) [] []

/-- Error type of the end-to-end pipeline: a trace-extraction error or a
deserialization error. -/
inductive TsErr where
  | trace (e : TraceErr) : TsErr
  | py (e : PyErr) : TsErr

/-- The list comprehension of `process_nghttpd_log` (http2.py lines
216–222) over the parsed items: each client's frames wrapped as
`{"frames": frames}` and decoded by `HTTP2Signature.from_dict`. -/
def clientSigs : List (Nat × List PyVal) → Except TsErr (List (Nat × List DynFrame))
  | [] => .ok []
  | (cid, fdicts) :: rest =>
    match sigFromDictVal (.vdict [("frames", .vlist fdicts)]) with
    | .error e => .error (.py e)
    | .ok frames =>
      match clientSigs rest with
      | .ok r => .ok ((cid, frames) :: r)
      | .error e => .error e

/-- `process_nghttpd_log` (http2.py lines 200–222), with each signature
object represented by its frame list. -/
def processNghttpdLog (log : String) : Except TsErr (List (Nat × List DynFrame)) :=
  match nghttpdParse log with
  | .error e => .error (.trace e)
  | .ok items => clientSigs items

/-! ## Decoder for canonical signature encodings

A parser for the strings `HTTP2Signature.canonicalize` produces, used only
to prove that the canonical form determines the frame list (claim C1).  It
is a left inverse of the encoder on signature encodings; on other inputs
its behaviour is irrelevant. -/

/-- Value of one lowercase hexadecimal digit character. -/
def hexCharVal? (c : Char) : Option Nat :=
  if 48 ≤ c.toNat ∧ c.toNat ≤ 57 then some (c.toNat - 48)
  else if 97 ≤ c.toNat ∧ c.toNat ≤ 102 then some (c.toNat - 87)
  else none

/-- Value of four hexadecimal digit characters. -/
def hex4Val? (a b c d : Char) : Option Nat :=
  match hexCharVal? a, hexCharVal? b, hexCharVal? c, hexCharVal? d with
  | some x, some y, some z, some w => some (x * 4096 + y * 256 + z * 16 + w)
  | _, _, _, _ => none

/-- Decodes the escaped body of a JSON string up to its closing quote into
UTF-16-style code units, together with the input after the quote. -/
def parseJUnits : List Char → Option (List Nat × List Char)
  | [] => none
  | '"' :: rest => some ([], rest)
  | '\\' :: 'u' :: a :: b :: c :: d :: rest =>
    match hex4Val? a b c d with
    | none => none
    | some code =>
      match parseJUnits rest with
      | some (us, r) => some (code :: us, r)
      | none => none
  | '\\' :: e :: rest =>
    match (if e = '"' then some '"' else if e = '\\' then some '\\'
      else if e = 'n' then some (Char.ofNat 10) else if e = 'r' then some (Char.ofNat 13)
      else if e = 't' then some (Char.ofNat 9) else if e = 'b' then some (Char.ofNat 8)
      else if e = 'f' then some (Char.ofNat 12) else none) with
    | none => none
    | some c =>
      match parseJUnits rest with
      | some (us, r) => some (c.toNat :: us, r)
      | none => none
  | c :: rest =>
    match parseJUnits rest with
    | some (us, r) => some (c.toNat :: us, r)
    | none => none

/-- Combines a code-unit list into characters, pairing surrogates. -/
def combineUnits : List Nat → Option (List Char)
  | [] => some []
  | u :: us =>
    if 0xd800 ≤ u ∧ u < 0xdc00 then
      match us with
      | lo :: us2 =>
        if 0xdc00 ≤ lo ∧ lo < 0xe000 then
          match combineUnits us2 with
          | some cs =>
            some (Char.ofNat (0x10000 + (u - 0xd800) * 0x400 + (lo - 0xdc00)) :: cs)
          | none => none
        else none
      | [] => none
    else if 0xdc00 ≤ u ∧ u < 0xe000 then none
    else
      match combineUnits us with
      | some cs => some (Char.ofNat u :: cs)
      | none => none

/-- The code units `escChar` produces for one character. -/
def unitsOfChar (c : Char) : List Nat :=
  if c.toNat < 0x10000 then [c.toNat]
  else [0xd800 + (c.toNat - 0x10000) / 0x400, 0xdc00 + (c.toNat - 0x10000) % 0x400]

/-- Decodes a quoted JSON string. -/
def parseJStr : List Char → Option (String × List Char)
  | '"' :: rest =>
    match parseJUnits rest with
    | some (us, r) =>
      match combineUnits us with
      | some cs => some (String.mk cs, r)
      | none => none
    | none => none
  | _ => none

/-- Decodes a decimal natural number (maximal digit run). -/
def parseNat (cs : List Char) : Option (Nat × List Char) :=
  match takeDigits1 cs with
  | none => none
  | some (ds, rest) => some (digitsVal ds, rest)

/-- Decodes an integer: an optional leading minus sign and digits. -/
def parseInt : List Char → Option (Int × List Char)
  | '-' :: cs =>
    match parseNat cs with
    | some (n, rest) => some (-(n : Int), rest)
    | none => none
  | cs =>
    match parseNat cs with
    | some (n, rest) => some ((n : Int), rest)
    | none => none

/-- Decodes a JSON boolean literal. -/
def parseBool : List Char → Option (Bool × List Char)
  | 't' :: 'r' :: 'u' :: 'e' :: rest => some (true, rest)
  | 'f' :: 'a' :: 'l' :: 's' :: 'e' :: rest => some (false, rest)
  | _ => none

/-- Closed form of the encoding of one stored settings entry. -/
def entryChars : SettingEntry → List Char
  | .valid k v =>
    Char.ofNat 123 :: ("\"id\": ".data ++ intChars k ++ ", \"value\": ".data ++
      intChars v ++ [Char.ofNat 125])
  | .grease =>
    Char.ofNat 123 :: ("\"id\": \"GREASE\", \"value\": \"GREASE\"".data ++ [Char.ofNat 125])

/-- Closed form of the tail of a frame encoding after its payload: either
the closing brace, or the `stream_id` field and the closing brace. -/
def sidTailChars : Option Int → List Char
  | none => [Char.ofNat 125]
  | some n => ", \"stream_id\": ".data ++ intChars n ++ [Char.ofNat 125]

/-- Decodes the tail of a frame encoding: `sidTailChars` in reverse. -/
def parseSidClose (cs : List Char) : Option (Option Int × List Char) :=
  match takeLit [Char.ofNat 125] cs with
  | some rest => some (none, rest)
  | none =>
    match takeLit ", \"stream_id\": ".data cs with
    | none => none
    | some cs1 =>
      match parseInt cs1 with
      | none => none
      | some (n, cs2) =>
        match takeLit [Char.ofNat 125] cs2 with
        | some rest => some (some n, rest)
        | none => none

/-- Decodes one settings entry. -/
def parseEntry (cs : List Char) : Option (SettingEntry × List Char) :=
  match takeLit (Char.ofNat 123 :: "\"id\": ".data) cs with
  | none => none
  | some cs1 =>
    match takeLit "\"GREASE\", \"value\": \"GREASE\"".data cs1 with
    | some cs2 =>
      match takeLit [Char.ofNat 125] cs2 with
      | some rest => some (.grease, rest)
      | none => none
    | none =>
      match parseInt cs1 with
      | none => none
      | some (k, cs2) =>
        match takeLit ", \"value\": ".data cs2 with
        | none => none
        | some cs3 =>
          match parseInt cs3 with
          | none => none
          | some (v, cs4) =>
            match takeLit [Char.ofNat 125] cs4 with
            | some rest => some (.valid k v, rest)
            | none => none

/-- Decodes a `]`-terminated comma-separated list of settings entries
(fuelled by the entry count, bounded by the input length). -/
def parseEntriesF : Nat → List Char → Option (List SettingEntry × List Char)
  | 0, _ => none
  | fuel + 1, cs =>
    match takeLit [']'] cs with
    | some rest => some ([], rest)
    | none =>
      match parseEntry cs with
      | none => none
      | some (e, cs2) =>
        match cs2 with
        | ']' :: rest => some ([e], rest)
        | ',' :: ' ' :: cs3 =>
          match parseEntriesF fuel cs3 with
          | some (es, rest) => some (e :: es, rest)
          | none => none
        | _ => none

/-- Decodes a `]`-terminated comma-separated list of JSON strings. -/
def parsePHListF : Nat → List Char → Option (List String × List Char)
  | 0, _ => none
  | fuel + 1, cs =>
    match takeLit [']'] cs with
    | some rest => some ([], rest)
    | none =>
      match parseJStr cs with
      | none => none
      | some (s, cs2) =>
        match cs2 with
        | ']' :: rest => some ([s], rest)
        | ',' :: ' ' :: cs3 =>
          match parsePHListF fuel cs3 with
          | some (ss, rest) => some (s :: ss, rest)
          | none => none
        | _ => none

/-- Decodes one frame encoding.  After the `frame_type` string the next
key (or the immediate closing brace) determines the frame shape, matching
the fixed sorted key order of `frameToDict` under `pyEncode`. -/
def parseFrame (cs : List Char) : Option (Frame × List Char) :=
  match takeLit (Char.ofNat 123 :: "\"frame_type\": ".data) cs with
  | none => none
  | some cs1 =>
    match parseJStr cs1 with
    | none => none
    | some (ft, cs2) =>
      match takeLit [Char.ofNat 125] cs2 with
      | some rest => some (.other ft none, rest)
      | none =>
        match takeLit ", \"settings\": [".data cs2 with
        | some cs3 =>
          match parseEntriesF cs3.length cs3 with
          | none => none
          | some (es, cs4) =>
            match parseSidClose cs4 with
            | some (sid, rest) => some (.settings sid es, rest)
            | none => none
        | none =>
          match takeLit ", \"stream_id\": ".data cs2 with
          | some cs3 =>
            match parseInt cs3 with
            | none => none
            | some (n, cs4) =>
              match takeLit [Char.ofNat 125] cs4 with
              | some rest => some (.other ft (some n), rest)
              | none =>
                match takeLit ", \"window_size_increment\": ".data cs4 with
                | none => none
                | some cs5 =>
                  match parseInt cs5 with
                  | none => none
                  | some (m, cs6) =>
                    match takeLit [Char.ofNat 125] cs6 with
                    | some rest => some (.windowUpdate (some n) m, rest)
                    | none => none
          | none =>
            match takeLit ", \"window_size_increment\": ".data cs2 with
            | some cs3 =>
              match parseInt cs3 with
              | none => none
              | some (m, cs4) =>
                match takeLit [Char.ofNat 125] cs4 with
                | some rest => some (.windowUpdate none m, rest)
                | none => none
            | none =>
              match takeLit ", \"pseudo_headers\": [".data cs2 with
              | some cs3 =>
                match parsePHListF cs3.length cs3 with
                | none => none
                | some (phs, cs4) =>
                  match parseSidClose cs4 with
                  | some (sid, rest) => some (.headers sid phs, rest)
                  | none => none
              | none =>
                match takeLit (", \"priority\": ".data ++
                    (Char.ofNat 123 :: "\"dep_stream_id\": ".data)) cs2 with
                | none => none
                | some cs3 =>
                  match parseInt cs3 with
                  | none => none
                  | some (d, cs4) =>
                    match takeLit ", \"exclusive\": ".data cs4 with
                    | none => none
                    | some cs5 =>
                      match parseBool cs5 with
                      | none => none
                      | some (e, cs6) =>
                        match takeLit ", \"weight\": ".data cs6 with
                        | none => none
                        | some cs7 =>
                          match parseInt cs7 with
                          | none => none
                          | some (w, cs8) =>
                            match takeLit [Char.ofNat 125] cs8 with
                            | none => none
                            | some cs9 =>
                              match parseSidClose cs9 with
                              | some (sid, rest) => some (.priority sid d w e, rest)
                              | none => none

/-- Decodes a `]`-terminated comma-separated list of frames. -/
def parseFramesF : Nat → List Char → Option (List Frame × List Char)
  | 0, _ => none
  | fuel + 1, cs =>
    match takeLit [']'] cs with
    | some rest => some ([], rest)
    | none =>
      match parseFrame cs with
      | none => none
      | some (f, cs2) =>
        match cs2 with
        | ']' :: rest => some ([f], rest)
        | ',' :: ' ' :: cs3 =>
          match parseFramesF fuel cs3 with
          | some (fs, rest) => some (f :: fs, rest)
          | none => none
        | _ => none

/-- Decodes a whole canonical signature encoding into its frame list. -/
def parseSigChars (cs : List Char) : Option (List Frame) :=
  match takeLit (Char.ofNat 123 :: "\"frames\": [".data) cs with
  | none => none
  | some cs1 =>
    match parseFramesF cs1.length cs1 with
    | none => none
    | some (fs, cs2) =>
      match cs2 with
      | [c] => if c = Char.ofNat 125 then some fs else none
      | _ => none

/-! ## Concrete traces

Representative nghttpd traces used to settle the trace-extractor claims on
explicit inputs (the line shapes follow utils.py's comment at line 84). -/

/-- A single client sending SETTINGS, WINDOW_UPDATE, HEADERS, PRIORITY,
SETTINGS, with one pseudo-header line before the HEADERS announcement. -/
def traceC8 : String :=
  "[id=1] recv SETTINGS frame <length=6, flags=0x00, stream_id=0>\n" ++
  "          (niv=1)\n" ++
  "          [SETTINGS_MAX_CONCURRENT_STREAMS(0x03):100]\n" ++
  "[id=1] recv WINDOW_UPDATE frame <length=4, flags=0x00, stream_id=0>\n" ++
  "          (window_size_increment=12517377)\n" ++
  "[id=1] [  1.234] recv (stream_id=1) :method: GET\n" ++
  "[id=1] recv HEADERS frame <length=10, flags=0x25, stream_id=1>\n" ++
  "[id=1] recv PRIORITY frame <length=5, flags=0x00, stream_id=3>\n" ++
  "          (dep_stream_id=0, weight=201, exclusive=0)\n" ++
  "[id=1] recv SETTINGS frame <length=0, flags=0x01, stream_id=0>\n" ++
  "          (niv=0)\n"

/-- Two interleaved clients: client 2 sends SETTINGS, then client 1 sends
WINDOW_UPDATE and HEADERS, then client 2 sends a PRIORITY frame after
client 1's first HEADERS frame. -/
def traceC4 : String :=
  "[id=2] recv SETTINGS frame <length=6, flags=0x00, stream_id=0>\n" ++
  "          (niv=1)\n" ++
  "          [SETTINGS_INITIAL_WINDOW_SIZE(0x04):65535]\n" ++
  "[id=1] recv WINDOW_UPDATE frame <length=4, flags=0x00, stream_id=0>\n" ++
  "          (window_size_increment=100)\n" ++
  "[id=1] recv HEADERS frame <length=7, flags=0x05, stream_id=1>\n" ++
  "[id=2] recv PRIORITY frame <length=5, flags=0x00, stream_id=3>\n" ++
  "          (dep_stream_id=0, weight=110, exclusive=1)\n"

/-- Client 2 is parsed completely; client 1 then announces a SETTINGS frame
whose declared count `niv=3` exceeds the one remaining parameter line, so
the trace ends mid-frame. -/
def traceC5 : String :=
  "[id=2] recv SETTINGS frame <length=6, flags=0x00, stream_id=0>\n" ++
  "          (niv=1)\n" ++
  "          [SETTINGS_HEADER_TABLE_SIZE(0x01):4096]\n" ++
  "[id=1] recv SETTINGS frame <length=18, flags=0x00, stream_id=0>\n" ++
  "          (niv=3)\n" ++
  "          [SETTINGS_HEADER_TABLE_SIZE(0x01):4096]\n"

/-! ## Decidable equality for the value model -/

theorem pyBeq_iff : ∀ a b : PyVal, pyBeq a b = true ↔ a = b := by
  have key : ∀ n a, sizeOf a ≤ n → ∀ b : PyVal, pyBeq a b = true ↔ a = b := by
    intro n
    induction n with
    | zero => intro a ha; cases a <;> simp at ha
    | succ n ih =>
      intro a ha b
      cases a with
      | vnone => cases b <;> simp [pyBeq]
      | vbool x => cases b <;> simp [pyBeq]
      | vint x => cases b <;> simp [pyBeq]
      | vstr x => cases b <;> simp [pyBeq]
      | vbytes x => cases b <;> simp [pyBeq]
      | vlist xs =>
        cases b <;> simp only [pyBeq, reduceCtorEq, false_iff, PyVal.vlist.injEq] <;>
          try exact fun h => nomatch h
        rename_i ys
        have hxs : ∀ x ∈ xs, ∀ y : PyVal, pyBeq x y = true ↔ x = y := by
          intro x hx
          refine ih x ?_
          have := List.sizeOf_lt_of_mem hx
          simp at ha; omega
        clear ih ha
        induction xs generalizing ys with
        | nil => cases ys <;> simp [pyBeqList]
        | cons x xs ihl =>
          cases ys with
          | nil => simp [pyBeqList]
          | cons y ys =>
            have htail : ∀ z ∈ xs, ∀ y2 : PyVal, pyBeq z y2 = true ↔ z = y2 :=
              fun z hz y2 => hxs z (List.mem_cons_of_mem _ hz) y2
            simp [pyBeqList, hxs x (List.mem_cons_self _ _), ihl ys htail]
      | vtuple xs =>
        cases b <;> simp only [pyBeq, reduceCtorEq, false_iff, PyVal.vtuple.injEq] <;>
          try exact fun h => nomatch h
        rename_i ys
        have hxs : ∀ x ∈ xs, ∀ y : PyVal, pyBeq x y = true ↔ x = y := by
          intro x hx
          refine ih x ?_
          have := List.sizeOf_lt_of_mem hx
          simp at ha; omega
        clear ih ha
        induction xs generalizing ys with
        | nil => cases ys <;> simp [pyBeqList]
        | cons x xs ihl =>
          cases ys with
          | nil => simp [pyBeqList]
          | cons y ys =>
            have htail : ∀ z ∈ xs, ∀ y2 : PyVal, pyBeq z y2 = true ↔ z = y2 :=
              fun z hz y2 => hxs z (List.mem_cons_of_mem _ hz) y2
            simp [pyBeqList, hxs x (List.mem_cons_self _ _), ihl ys htail]
      | vdict fs =>
        cases b <;> simp only [pyBeq, reduceCtorEq, false_iff, PyVal.vdict.injEq] <;>
          try exact fun h => nomatch h
        rename_i gs
        have hfs : ∀ kv ∈ fs, ∀ y : PyVal, pyBeq kv.2 y = true ↔ kv.2 = y := by
          intro kv hkv
          refine ih kv.2 ?_
          have h2 := List.sizeOf_lt_of_mem hkv
          rcases kv with ⟨k, v⟩
          simp at ha h2 ⊢; omega
        clear ih ha
        induction fs generalizing gs with
        | nil => cases gs <;> simp [pyBeqFields]
        | cons kv fs ihl =>
          cases gs with
          | nil => rcases kv with ⟨k, v⟩; simp [pyBeqFields]
          | cons kw gs =>
            rcases kv with ⟨k, v⟩; rcases kw with ⟨k2, v2⟩
            have htail : ∀ z ∈ fs, ∀ y2 : PyVal, pyBeq z.2 y2 = true ↔ z.2 = y2 :=
              fun z hz y2 => hfs z (List.mem_cons_of_mem _ hz) y2
            simp [pyBeqFields, hfs (k, v) (List.mem_cons_self _ _), ihl gs htail,
              Prod.ext_iff]
  exact fun a => key (sizeOf a) a (le_refl _)

instance : DecidableEq PyVal := fun a b => decidable_of_iff _ (pyBeq_iff a b)

deriving instance DecidableEq for DynFrame
deriving instance DecidableEq for PyErr
deriving instance DecidableEq for TsErr
deriving instance DecidableEq for Except

/-! ## Store lemmas and the record-mutation claims -/

theorem set_append_length {α : Type} (l : List α) (a b : α) :
    (l ++ [a]).set l.length b = l ++ [b] := by
  induction l with
  | nil => rfl
  | cons x xs ih => simp [List.set, ih]

theorem storeGet_append_left (st tail : PyStore) (i : Nat) (h : i < List.length st) :
    storeGet (st ++ tail) i = storeGet st i := by
  simp only [storeGet]
  rw [List.getD_eq_getElem?_getD, List.getD_eq_getElem?_getD,
    List.getElem?_append_left h]

theorem fromDictRef_extends (j : Nat) (st : PyStore) :
    ∃ tail, (fromDictRef j st).2 = st ++ tail := by
  cases hv : storeGet (st ++ [storeGet st j]) (List.length st) with
  | vdict fs =>
    cases hp : dictPop? fs "frame_type" with
    | none => exact ⟨[storeGet st j], by simp [fromDictRef, hv, hp]⟩
    | some p =>
      obtain ⟨ftv, fs2⟩ := p
      refine ⟨[.vdict fs2], ?_⟩
      simp only [fromDictRef, hv, hp]
      exact set_append_length st _ _
  | vnone => exact ⟨[storeGet st j], by simp [fromDictRef, hv]⟩
  | vbool b => exact ⟨[storeGet st j], by simp [fromDictRef, hv]⟩
  | vint n => exact ⟨[storeGet st j], by simp [fromDictRef, hv]⟩
  | vstr s => exact ⟨[storeGet st j], by simp [fromDictRef, hv]⟩
  | vbytes bs => exact ⟨[storeGet st j], by simp [fromDictRef, hv]⟩
  | vlist xs => exact ⟨[storeGet st j], by simp [fromDictRef, hv]⟩
  | vtuple xs => exact ⟨[storeGet st j], by simp [fromDictRef, hv]⟩

theorem framesFromRefs_extends (k : Nat) :
    ∀ (i : Nat) (st : PyStore), ∃ tail, (framesFromRefs i k st).2 = st ++ tail := by
  induction k with
  | zero => exact fun i st => ⟨[], by simp [framesFromRefs]⟩
  | succ k ih =>
    intro i st
    obtain ⟨t1, h1⟩ := fromDictRef_extends i st
    rcases hf : fromDictRef i st with ⟨res, st2⟩
    have hst2 : st2 = st ++ t1 := by rw [← h1, hf]
    cases res with
    | error e => exact ⟨t1, by simp [framesFromRefs, hf, hst2]⟩
    | ok f =>
      obtain ⟨t2, h2⟩ := ih (i + 1) st2
      rcases hg : framesFromRefs (i + 1) k st2 with ⟨res2, st3⟩
      have hst3 : st3 = st ++ (t1 ++ t2) := by
        have h3 : st3 = st2 ++ t2 := by rw [← h2, hg]
        rw [h3, hst2, List.append_assoc]
      cases res2 with
      | ok r => exact ⟨t1 ++ t2, by simp [framesFromRefs, hf, hg, hst3]⟩
      | error e => exact ⟨t1 ++ t2, by simp [framesFromRefs, hf, hg, hst3]⟩

theorem sigFromDictRef_extends (j : Nat) (st : PyStore) :
    ∃ tail, (sigFromDictRef j st).2 = st ++ tail := by
  cases hv : storeGet st j with
  | vdict fs =>
    cases hg : dictGet? fs "frames" with
    | none => exact ⟨[], by simp [sigFromDictRef, hv, hg]⟩
    | some v =>
      cases v with
      | vlist vs =>
        obtain ⟨t, ht⟩ := framesFromRefs_extends vs.length (List.length st) (st ++ vs)
        exact ⟨vs ++ t, by simp [sigFromDictRef, hv, hg, ht, List.append_assoc]⟩
      | vnone => exact ⟨[], by simp [sigFromDictRef, hv, hg]⟩
      | vbool b => exact ⟨[], by simp [sigFromDictRef, hv, hg]⟩
      | vint n => exact ⟨[], by simp [sigFromDictRef, hv, hg]⟩
      | vstr s => exact ⟨[], by simp [sigFromDictRef, hv, hg]⟩
      | vbytes bs => exact ⟨[], by simp [sigFromDictRef, hv, hg]⟩
      | vtuple xs => exact ⟨[], by simp [sigFromDictRef, hv, hg]⟩
      | vdict gs => exact ⟨[], by simp [sigFromDictRef, hv, hg]⟩
  | vnone => exact ⟨[], by simp [sigFromDictRef, hv]⟩
  | vbool b => exact ⟨[], by simp [sigFromDictRef, hv]⟩
  | vint n => exact ⟨[], by simp [sigFromDictRef, hv]⟩
  | vstr s => exact ⟨[], by simp [sigFromDictRef, hv]⟩
  | vbytes bs => exact ⟨[], by simp [sigFromDictRef, hv]⟩
  | vlist xs => exact ⟨[], by simp [sigFromDictRef, hv]⟩
  | vtuple xs => exact ⟨[], by simp [sigFromDictRef, hv]⟩

/-- C10: deserialization does not mutate its input.  In the store model,
`HTTP2FrameSignature.from_dict` and `HTTP2Signature.from_dict` applied to
the record at any reference `j` leave every pre-existing reference `i`
(hence the record itself, with all its inline nested structure) holding its
original value: the only write is `d.pop("frame_type")` on the fresh copy
that `d.copy()` allocated. -/
theorem C10_from_dict_does_not_mutate (j : Nat) (st : PyStore) (i : Nat)
    (h : i < List.length st) :
    storeGet (fromDictRef j st).2 i = storeGet st i ∧
      storeGet (sigFromDictRef j st).2 i = storeGet st i := by
  constructor
  · obtain ⟨t, ht⟩ := fromDictRef_extends j st
    rw [ht, storeGet_append_left _ _ _ h]
  · obtain ⟨t, ht⟩ := sigFromDictRef_extends j st
    rw [ht, storeGet_append_left _ _ _ h]

/-- Witness for C10 at a concrete one-record store. -/
theorem C10_from_dict_does_not_mutate_witness :
    storeGet (fromDictRef 0 [.vdict [("frame_type", .vstr "HEADERS"),
      ("stream_id", .vint 1), ("pseudo_headers", .vlist [.vstr ":method"])]]).2 0 =
      .vdict [("frame_type", .vstr "HEADERS"), ("stream_id", .vint 1),
        ("pseudo_headers", .vlist [.vstr ":method"])] ∧
    storeGet (sigFromDictRef 0 [.vdict [("frames", .vlist [.vdict
      [("frame_type", .vstr "WINDOW_UPDATE"), ("window_size_increment", .vint 5)]])]]).2 0 =
      .vdict [("frames", .vlist [.vdict
        [("frame_type", .vstr "WINDOW_UPDATE"), ("window_size_increment", .vint 5)]])] :=
  ⟨(C10_from_dict_does_not_mutate 0 _ 0 (by decide)).1.trans (by decide),
   (C10_from_dict_does_not_mutate 0 _ 0 (by decide)).2.trans (by decide)⟩

/-! ## Deserialization claims C2 and C3 -/

/-- C3: the claim expects `from_dict` on an unregistered `"frame_type"` tag
to build a minimal opaque frame retaining `frame_type` and `stream_id`; the
code instead reaches `HTTP2FrameSignature(frame_type=frame_type)` (http2.py
line 42), which omits the required positional argument `stream_id` and
raises `TypeError` — and would drop the record's `stream_id` even if the
call succeeded.  The code contradicts its own docstring (http2.py lines
32–35). -/
theorem C3_unknown_type_from_dict_crashes :
    fromDictVal (.vdict [("frame_type", .vstr "PING"), ("stream_id", .vint 0)]) =
      .error .typeErrorMissingStreamId := rfl

/-- C2: the serialize/deserialize round trip fails for SETTINGS frames.
`HTTP2SettingsFrame.to_dict` stores `settings` as a list of
`{"id": k, "value": v}` dicts, but `from_dict` feeds that list back into
the constructor, whose `for (k, v) in settings` unpacks each dict into its
keys `("id", "value")`; `"id"` is not a valid settings id, so every entry
collapses to `("GREASE", "GREASE")`.  For the valid frame
`HTTP2SettingsFrame(stream_id=0, settings=[(1, 65536)])` (stored entry
`{"id": 1, "value": 65536}`), the round trip returns a frame whose entry is
`{"id": "GREASE", "value": "GREASE"}` — not field-for-field equal. -/
theorem C2_settings_round_trip_fails :
    fromDictVal (frameToDict (Frame.settings (some 0) [SettingEntry.valid 1 65536])) =
      .ok (DynFrame.settings (.vint 0) [(.vstr "GREASE", .vstr "GREASE")]) ∧
    DynFrame.settings (.vint 0) [(.vstr "GREASE", .vstr "GREASE")] ≠
      DynFrame.settings (.vint 0) [(.vint 1, .vint 65536)] := by
  exact ⟨rfl, by decide⟩

/-! ## GREASE normalization claim C6 -/

/-- C6: a SETTINGS frame built with a parameter id outside
`VALID_SETTINGS = [1, 2, 3, 4, 5, 6]` serializes that parameter as
`{"id": "GREASE", "value": "GREASE"}` regardless of its value, while a
parameter with a valid id keeps its id and value unchanged. -/
theorem C6_grease_normalization (sid : Option Int) (k v : Int) :
    (k ∉ VALID_SETTINGS →
      frameToDict (settingsFrameInit sid [(k, v)]) =
        .vdict ([("frame_type", .vstr "SETTINGS")] ++ sidFields sid ++
          [("settings", .vlist [.vdict [("id", .vstr "GREASE"),
            ("value", .vstr "GREASE")]])])) ∧
    (k ∈ VALID_SETTINGS →
      frameToDict (settingsFrameInit sid [(k, v)]) =
        .vdict ([("frame_type", .vstr "SETTINGS")] ++ sidFields sid ++
          [("settings", .vlist [.vdict [("id", .vint k), ("value", .vint v)]])])) := by
  constructor
  · intro h
    simp [settingsFrameInit, frameToDict, entryToDict, h]
  · intro h
    simp [settingsFrameInit, frameToDict, entryToDict, h]

/-- Witness for C6: id 7 with an arbitrary value normalizes to GREASE; the
valid id 3 keeps its value. -/
theorem C6_grease_normalization_witness :
    frameToDict (settingsFrameInit (some 0) [(7, 12345)]) =
      .vdict [("frame_type", .vstr "SETTINGS"), ("stream_id", .vint 0),
        ("settings", .vlist [.vdict [("id", .vstr "GREASE"), ("value", .vstr "GREASE")]])] ∧
    frameToDict (settingsFrameInit (some 0) [(3, 99)]) =
      .vdict [("frame_type", .vstr "SETTINGS"), ("stream_id", .vint 0),
        ("settings", .vlist [.vdict [("id", .vint 3), ("value", .vint 99)]])] :=
  ⟨(C6_grease_normalization (some 0) 7 12345).1 (by decide),
   (C6_grease_normalization (some 0) 3 99).2 (by decide)⟩

/-! ## Trace-extractor claims C8, C4, C5 -/

/-- C8: for a trace carrying, for one client, the frame sequence
[SETTINGS, WINDOW_UPDATE, HEADERS, PRIORITY, SETTINGS], the extracted
signature holds exactly [SETTINGS, WINDOW_UPDATE, HEADERS] in that order:
the first HEADERS frame is included (with its pseudo-header) and nothing
after it is collected. -/
theorem C8_headers_truncation :
    processNghttpdLog traceC8 = .ok [(1,
      [DynFrame.settings (.vint 0) [(.vint 3, .vint 100)],
       DynFrame.windowUpdate (.vint 0) (.vint 12517377),
       DynFrame.headers (.vint 1) (.vlist [.vstr ":method"])])] := by decide

/-- C4 counterexample: the claim says frames of client 2 that appear in the
trace after client 1's first HEADERS frame are still collected for
client 2, i.e. on `traceC4` client 2's list would be its SETTINGS record
followed by its PRIORITY record.  It is not: the loop's `break` (utils.py
line 123) stops the whole parse at the first HEADERS frame of any client. -/
theorem C4_per_client_scope_counterexample :
    ¬ ((nghttpdParse traceC4).toOption.bind (fun r => r.lookup 2) =
        some [settingsFrameDict 0 [(4, 65535)], priorityFrameDict 3 (0, 110, 1)]) := by
  decide

/-- C4 as amended: a trace interleaving two client ids produces independent
per-client frame lists, each in its client's temporal order, but collection
stops globally at the first HEADERS frame of any client: client 2's
SETTINGS frame (before the cutoff) is kept while its PRIORITY frame (after
client 1's HEADERS) is not. -/
theorem C4_multi_client_global_cutoff :
    nghttpdParse traceC4 = .ok
      [(2, [settingsFrameDict 0 [(4, 65535)]]),
       (1, [wuFrameDict 0 100, headersFrameDict 1 []])] := by decide

/-- C5 counterexample: the claim says that after a malformed frame the
results of clients fully parsed earlier in the same pass are still
returned.  On `traceC5`, client 2 is fully parsed before client 1's
malformed SETTINGS frame, yet the parse returns no result at all: the
exception propagates out of `parse()` and discards everything. -/
theorem C5_error_atomicity_counterexample :
    ¬ ∃ r, nghttpdParse traceC5 = Except.ok r := by
  intro hex
  obtain ⟨r, hr⟩ := hex
  have hres : nghttpdParse traceC5 = .error .endedUnexpectedly := by decide
  rw [hres] at hr
  exact Except.noConfusion hr

/-- C5 as amended: a malformed frame aborts the entire parse with the
malformed-log error; no client's results are returned, including those of
clients fully parsed earlier in the same pass. -/
theorem C5_malformed_aborts_whole_parse :
    nghttpdParse traceC5 = .error .endedUnexpectedly := by decide

/-! ## The settings count-line scan (claim C9) -/

theorem skipToNiv_all_none (junk : List String) (h : ∀ l ∈ junk, nivMatch l = none) :
    skipToNiv junk = .error .endedUnexpectedly := by
  induction junk with
  | nil => rfl
  | cons l t ih =>
    have hl : nivMatch l = none := h l (List.mem_cons_self _ _)
    have ht := ih (fun x hx => h x (List.mem_cons_of_mem _ hx))
    simp [skipToNiv, hl, ht]

theorem skipToNiv_append (junk : List String) (h : ∀ l ∈ junk, nivMatch l = none)
    (rest : List String) :
    skipToNiv (junk ++ rest) =
      match skipToNiv rest with
      | .ok (n, k) => .ok (n, k + junk.length)
      | .error e => .error e := by
  induction junk with
  | nil =>
    cases hr : skipToNiv rest with
    | ok p => simp [hr]
    | error e => simp [hr]
  | cons l t ih =>
    have hl : nivMatch l = none := h l (List.mem_cons_self _ _)
    have ht := ih (fun x hx => h x (List.mem_cons_of_mem _ hx))
    rw [List.cons_append]
    cases hr : skipToNiv rest with
    | ok p =>
      obtain ⟨n, k⟩ := p
      rw [hr] at ht
      simp only [skipToNiv, hl, ht, hr, List.length_cons]
      have harith : k + t.length + 1 = k + (t.length + 1) := by omega
      rw [harith]
    | error e =>
      rw [hr] at ht
      simp only [skipToNiv, hl, ht, hr]

theorem processSettingsFrame_append (junk : List String)
    (h : ∀ l ∈ junk, nivMatch l = none) (rest : List String) :
    processSettingsFrame (junk ++ rest) =
      match processSettingsFrame rest with
      | .ok (svs, k) => .ok (svs, k + junk.length)
      | .error e => .error e := by
  unfold processSettingsFrame
  rw [skipToNiv_append junk h rest]
  cases hr : skipToNiv rest with
  | error e => simp
  | ok p =>
    obtain ⟨n, k⟩ := p
    have hdrop : (junk ++ rest).drop (k + junk.length) = rest.drop k := by
      rw [Nat.add_comm k junk.length]
      exact List.drop_append k
    simp only [hdrop]
    cases hs : readSettings n (rest.drop k) with
    | error e => simp
    | ok q =>
      obtain ⟨svs, m⟩ := q
      simp only
      have harith : k + junk.length + m = k + m + junk.length := by omega
      rw [harith]

theorem parseLoopF_fuel (f1 : Nat) :
    ∀ (f2 : Nat) (lines : List String) (frames : List (Nat × List PyVal))
      (prev : List String), lines.length ≤ f1 → lines.length ≤ f2 →
      parseLoopF f1 lines frames prev = parseLoopF f2 lines frames prev := by
  induction f1 with
  | zero =>
    intro f2 lines frames prev h1 _
    cases lines with
    | nil => cases f2 <;> rfl
    | cons l rest => simp at h1
  | succ f1 ih =>
    intro f2 lines frames prev h1 h2
    cases lines with
    | nil => cases f2 <;> rfl
    | cons line rest =>
      cases f2 with
      | zero => simp at h2
      | succ f2 =>
        simp only [List.length_cons] at h1 h2
        simp only [parseLoopF]
        cases announceMatch line with
        | none =>
          exact ih f2 rest frames (prev ++ [line]) (by omega) (by omega)
        | some t =>
          obtain ⟨cid, ftype, sid⟩ := t
          simp only
          by_cases hS : ftype = "SETTINGS"
          · simp only [hS, if_pos]
            cases processSettingsFrame rest with
            | error e => rfl
            | ok p =>
              obtain ⟨svs, k⟩ := p
              exact ih f2 (rest.drop k) _ []
                (by simp [List.length_drop]; omega) (by simp [List.length_drop]; omega)
          · simp only [hS, if_neg, if_false]
            by_cases hW : ftype = "WINDOW_UPDATE"
            · simp only [hW, if_pos]
              cases processWindowUpdateFrame rest with
              | error e => rfl
              | ok w =>
                exact ih f2 (rest.drop 1) _ []
                  (by simp [List.length_drop]; omega) (by simp [List.length_drop]; omega)
            · simp only [hW, if_neg, if_false]
              by_cases hH : ftype = "HEADERS"
              · simp only [hH, if_pos]
              · simp only [hH, if_neg, if_false]
                by_cases hP : ftype = "PRIORITY"
                · simp only [hP, if_pos]
                  cases processPriorityFrame rest with
                  | error e => rfl
                  | ok dwe =>
                    exact ih f2 (rest.drop 1) _ []
                      (by simp [List.length_drop]; omega) (by simp [List.length_drop]; omega)
                · simp only [hP, if_neg, if_false]

/-- C9: after a SETTINGS frame announcement, the extractor consumes and
silently discards every line that does not match the `(niv=N)` count
pattern until one does.  First conjunct: the parse of a trace with such
junk lines between the announcement and the count line equals the parse of
the trace without them — so the discarded lines are never added to the
pending buffer and never examined as frame announcements.  Second
conjunct: if the input ends before a count line appears, the whole parse
fails with the malformed-log error. -/
theorem C9_settings_scan_discards_nonmatching_lines :
    (∀ (ann : String) (cid sid : Nat) (junk rest : List String)
       (frames : List (Nat × List PyVal)) (prev : List String),
       announceMatch ann = some (cid, "SETTINGS", sid) →
       (∀ l ∈ junk, nivMatch l = none) →
       parseLoopF (ann :: (junk ++ rest)).length (ann :: (junk ++ rest)) frames prev =
         parseLoopF (ann :: rest).length (ann :: rest) frames prev) ∧
    (∀ (ann : String) (cid sid : Nat) (junk : List String)
       (frames : List (Nat × List PyVal)) (prev : List String),
       announceMatch ann = some (cid, "SETTINGS", sid) →
       (∀ l ∈ junk, nivMatch l = none) →
       parseLoopF (ann :: junk).length (ann :: junk) frames prev =
         .error .endedUnexpectedly) := by
  constructor
  · intro ann cid sid junk rest frames prev hann hjunk
    simp only [List.length_cons, parseLoopF, hann, if_pos]
    rw [processSettingsFrame_append junk hjunk rest]
    cases hp : processSettingsFrame rest with
    | error e => simp
    | ok p =>
      obtain ⟨svs, k⟩ := p
      simp only
      have hdrop : (junk ++ rest).drop (k + junk.length) = rest.drop k := by
        rw [Nat.add_comm k junk.length]
        exact List.drop_append k
      rw [hdrop]
      refine parseLoopF_fuel _ _ _ _ _ ?_ ?_ <;> simp [List.length_drop] <;> omega
  · intro ann cid sid junk frames prev hann hjunk
    simp only [List.length_cons, parseLoopF, hann, if_pos]
    have hskip : skipToNiv junk = .error .endedUnexpectedly := skipToNiv_all_none junk hjunk
    simp [processSettingsFrame, hskip]

/-- Witness for C9: a concrete SETTINGS announcement followed by two junk
lines; the parse equals the junk-free parse, and with no count line at all
it fails with the malformed-log error. -/
theorem C9_settings_scan_witness :
    parseLoopF 4 ["[id=1] recv SETTINGS frame <length=0, flags=0x00, stream_id=0>",
        "some garbage", "   (not a count)", "          (niv=0)"]
        [] [] =
      parseLoopF 2 ["[id=1] recv SETTINGS frame <length=0, flags=0x00, stream_id=0>",
        "          (niv=0)"] [] [] ∧
    parseLoopF 3 ["[id=1] recv SETTINGS frame <length=0, flags=0x00, stream_id=0>",
        "some garbage", "   (not a count)"] [] [] =
      .error .endedUnexpectedly :=
  ⟨C9_settings_scan_discards_nonmatching_lines.1
      "[id=1] recv SETTINGS frame <length=0, flags=0x00, stream_id=0>" 1 0
      ["some garbage", "   (not a count)"] ["          (niv=0)"] [] []
      (by decide) (by decide),
   C9_settings_scan_discards_nonmatching_lines.2
      "[id=1] recv SETTINGS frame <length=0, flags=0x00, stream_id=0>" 1 0
      ["some garbage", "   (not a count)"] [] []
      (by decide) (by decide)⟩

/-! ## Canonical encoder: key-order insensitivity (claim C7) -/

theorem charListLeB_total : ∀ a b : List Char, charListLeB a b = true ∨ charListLeB b a = true := by
  intro a
  induction a with
  | nil => intro b; exact Or.inl rfl
  | cons x xs ih =>
    intro b
    cases b with
    | nil => exact Or.inr rfl
    | cons y ys =>
      simp only [charListLeB]
      rcases Nat.lt_trichotomy x.toNat y.toNat with h | h | h
      · left; simp [h]
      · have h1 : ¬ x.toNat < y.toNat := by omega
        have h2 : ¬ y.toNat < x.toNat := by omega
        rcases ih ys with hy | hy
        · left; simp [h1, h2, hy]
        · right; simp [h1, h2, hy]
      · right; simp [h]

theorem charListLeB_trans : ∀ a b c : List Char,
    charListLeB a b = true → charListLeB b c = true → charListLeB a c = true := by
  intro a
  induction a with
  | nil => intro b c _ _; rfl
  | cons x xs ih =>
    intro b c hab hbc
    cases b with
    | nil => simp [charListLeB] at hab
    | cons y ys =>
      cases c with
      | nil => simp [charListLeB] at hbc
      | cons z zs =>
        simp only [charListLeB] at hab hbc ⊢
        split_ifs at hab hbc ⊢ <;>
          first
            | rfl
            | omega
            | exact ih ys zs hab hbc
            | simp at hab
            | simp at hbc

instance : IsTotal (String × List Char) pairLe :=
  ⟨fun a b => charListLeB_total a.1.data b.1.data⟩

instance : IsTrans (String × List Char) pairLe :=
  ⟨fun _ _ _ hab hbc => charListLeB_trans _ _ _ hab hbc⟩

instance : IsTotal (String × PyVal) fieldLe :=
  ⟨fun a b => charListLeB_total a.1.data b.1.data⟩

instance : IsTrans (String × PyVal) fieldLe :=
  ⟨fun _ _ _ hab hbc => charListLeB_trans _ _ _ hab hbc⟩

theorem sortPairs_sorted (l : List (String × List Char)) :
    List.Sorted pairLe (sortPairs l) := List.sorted_insertionSort pairLe l

theorem sortPairs_idem (l : List (String × List Char)) :
    sortPairs (sortPairs l) = sortPairs l :=
  List.Sorted.insertionSort_eq (sortPairs_sorted l)

theorem pyEncodeFields_eq_map (fs : List (String × PyVal)) :
    pyEncodeFields fs = fs.map (fun kv => (kv.1, pyEncode kv.2)) := by
  induction fs with
  | nil => rfl
  | cons kv rest ih => rcases kv with ⟨k, v⟩; simp [pyEncodeFields, ih]

theorem pyEncodeList_eq_map (xs : List PyVal) : pyEncodeList xs = xs.map pyEncode := by
  induction xs with
  | nil => rfl
  | cons x rest ih => simp [pyEncodeList, ih]

theorem canonValueFields_eq_map (fs : List (String × PyVal)) :
    canonValueFields fs = fs.map (fun kv => (kv.1, canonValue kv.2)) := by
  induction fs with
  | nil => rfl
  | cons kv rest ih => rcases kv with ⟨k, v⟩; simp [canonValueFields, ih]

theorem canonValueList_eq_map (xs : List PyVal) : canonValueList xs = xs.map canonValue := by
  induction xs with
  | nil => rfl
  | cons x rest ih => simp [canonValueList, ih]

theorem orderedInsert_encKV (a : String × PyVal) (l : List (String × PyVal)) :
    List.orderedInsert pairLe ((fun kv : String × PyVal => (kv.1, pyEncode kv.2)) a)
        (l.map (fun kv => (kv.1, pyEncode kv.2))) =
      (List.orderedInsert fieldLe a l).map (fun kv => (kv.1, pyEncode kv.2)) := by
  induction l with
  | nil => rfl
  | cons x rest ih =>
    have hiff : pairLe (a.1, pyEncode a.2) (x.1, pyEncode x.2) ↔ fieldLe a x := Iff.rfl
    by_cases h : fieldLe a x
    · simp [List.orderedInsert, h, hiff.mpr h]
    · have h2 : ¬ pairLe (a.1, pyEncode a.2) (x.1, pyEncode x.2) := fun hh => h (hiff.mp hh)
      simp [List.orderedInsert, h, h2, ih]

theorem sortPairs_map_encKV (l : List (String × PyVal)) :
    sortPairs (l.map (fun kv => (kv.1, pyEncode kv.2))) =
      (sortFields l).map (fun kv => (kv.1, pyEncode kv.2)) := by
  induction l with
  | nil => rfl
  | cons x rest ih =>
    simp only [sortPairs, sortFields, List.map_cons, List.insertionSort] at ih ⊢
    rw [ih, orderedInsert_encKV]

theorem pyEncode_canonValue : ∀ v : PyVal, pyEncode (canonValue v) = pyEncode v := by
  have key : ∀ n v, sizeOf v ≤ n → pyEncode (canonValue v) = pyEncode v := by
    intro n
    induction n with
    | zero => intro v hv; cases v <;> simp at hv
    | succ n ih =>
      intro v hv
      cases v with
      | vnone => rfl
      | vbool b => rfl
      | vint m => rfl
      | vstr s => rfl
      | vbytes bs => rfl
      | vlist xs =>
        have hxs : ∀ x ∈ xs, pyEncode (canonValue x) = pyEncode x := by
          intro x hx
          refine ih x ?_
          have := List.sizeOf_lt_of_mem hx
          simp at hv; omega
        simp only [canonValue, pyEncode, canonValueList_eq_map, pyEncodeList_eq_map,
          List.map_map]
        have hmap : List.map (pyEncode ∘ canonValue) xs = List.map pyEncode xs :=
          List.map_congr_left (fun x hx => hxs x hx)
        rw [hmap]
      | vtuple xs =>
        have hxs : ∀ x ∈ xs, pyEncode (canonValue x) = pyEncode x := by
          intro x hx
          refine ih x ?_
          have := List.sizeOf_lt_of_mem hx
          simp at hv; omega
        simp only [canonValue, pyEncode, canonValueList_eq_map, pyEncodeList_eq_map,
          List.map_map]
        have hmap : List.map (pyEncode ∘ canonValue) xs = List.map pyEncode xs :=
          List.map_congr_left (fun x hx => hxs x hx)
        rw [hmap]
      | vdict fs =>
        have hfs : ∀ kv ∈ fs, pyEncode (canonValue kv.2) = pyEncode kv.2 := by
          intro kv hkv
          refine ih kv.2 ?_
          have h2 := List.sizeOf_lt_of_mem hkv
          rcases kv with ⟨k, v⟩
          simp at hv h2 ⊢; omega
        simp only [canonValue, pyEncode, encDictBody, canonValueFields_eq_map,
          pyEncodeFields_eq_map]
        rw [← sortPairs_map_encKV, sortPairs_idem, List.map_map]
        have hcongr : fs.map ((fun kv : String × PyVal => (kv.1, pyEncode kv.2)) ∘
            (fun kv => (kv.1, canonValue kv.2))) =
            fs.map (fun kv => (kv.1, pyEncode kv.2)) :=
          List.map_congr_left (fun kv hkv => by
            simp only [Function.comp]
            rw [hfs kv hkv])
        rw [hcongr]
  exact fun v => key (sizeOf v) v (le_refl _)

/-- C7: `canonicalize` is the deterministic sorted-keys JSON encoding of
`to_dict()` (first conjunct, by definition of the embedding — determinism
and purity are inherent to a Lean function); byte payloads are encoded in
base64 between quotes (second conjunct); and the encoding is insensitive to
the insertion order of dict fields at every nesting level: two values with
the same canonical form — identical logical content up to dict-field
order, with list and tuple order preserved — have byte-identical encodings
(third conjunct). -/
theorem C7_canonicalize_deterministic_key_order_insensitive :
    (∀ s : HTTP2Signature, s.canonicalize = String.mk (pyEncode (sigToDict s))) ∧
    (∀ bs : List Nat, pyEncode (.vbytes bs) = '"' :: b64Encode bs ++ ['"']) ∧
    (∀ v1 v2 : PyVal, canonValue v1 = canonValue v2 → pyEncode v1 = pyEncode v2) := by
  refine ⟨fun _ => rfl, fun _ => rfl, fun v1 v2 h => ?_⟩
  rw [← pyEncode_canonValue v1, ← pyEncode_canonValue v2, h]

/-- Witness for C7: two nested dicts whose fields are inserted in different
orders at both levels have the same canonical value and hence identical
encodings. -/
theorem C7_key_order_insensitive_witness :
    pyEncode (.vdict [("b", .vint 1),
        ("a", .vlist [.vdict [("y", .vint 2), ("x", .vint 3)]])]) =
      pyEncode (.vdict [("a", .vlist [.vdict [("x", .vint 3), ("y", .vint 2)]]),
        ("b", .vint 1)]) :=
  C7_canonicalize_deterministic_key_order_insensitive.2.2 _ _ (by decide)

/-! ## Decoder round-trip: tokens -/

theorem takeLit_append (lit rest : List Char) : takeLit lit (lit ++ rest) = some rest := by
  induction lit with
  | nil => rfl
  | cons c cs ih => simp [takeLit, ih]

theorem natCharsAux_eq_natChars :
    ∀ n : Nat, ∀ f : Nat, n < f → natCharsAux f n = natChars n := by
  intro n
  induction n using Nat.strong_induction_on with
  | _ n ih =>
    intro f hf
    cases f with
    | zero => omega
    | succ f =>
      by_cases h10 : n < 10
      · simp [natCharsAux, natChars, h10]
      · have hdiv : n / 10 < n := Nat.div_lt_self (by omega) (by omega)
        simp only [natCharsAux, natChars, h10, if_false]
        rw [ih (n / 10) hdiv f (by omega), ih (n / 10) hdiv n (by omega)]

theorem natChars_all_digits (n : Nat) : ∀ c ∈ natChars n, isDigitChar c = true := by
  induction n using Nat.strong_induction_on with
  | _ n ih =>
    intro c hc
    have hdig : ∀ d : Nat, d < 10 → isDigitChar (digitChar d) = true := by
      intro d hd
      interval_cases d <;> rfl
    by_cases h10 : n < 10
    · simp only [natChars, natCharsAux, h10, if_true, List.mem_singleton] at hc
      rw [hc]; exact hdig n h10
    · simp only [natChars, natCharsAux, h10, if_false] at hc
      rw [natCharsAux_eq_natChars (n / 10) n (Nat.div_lt_self (by omega) (by omega))] at hc
      rcases List.mem_append.mp hc with h | h
      · exact ih (n / 10) (Nat.div_lt_self (by omega) (by omega)) c h
      · rw [List.mem_singleton.mp h]
        exact hdig (n % 10) (Nat.mod_lt _ (by omega))

theorem natChars_ne_nil (n : Nat) : natChars n ≠ [] := by
  by_cases h10 : n < 10
  · simp [natChars, natCharsAux, h10]
  · simp only [natChars, natCharsAux, h10, if_false]
    intro h
    exact absurd (List.append_eq_nil.mp h).2 (by simp)

theorem digitChar_toNat (d : Nat) (h : d < 10) : (digitChar d).toNat = 48 + d := by
  interval_cases d <;> rfl

theorem digitsVal_append (a : List Char) (c : Char) :
    digitsVal (a ++ [c]) = digitsVal a * 10 + (c.toNat - 48) := by
  simp [digitsVal, List.foldl_append]

theorem digitsVal_natChars (n : Nat) : digitsVal (natChars n) = n := by
  induction n using Nat.strong_induction_on with
  | _ n ih =>
    by_cases h10 : n < 10
    · simp only [natChars, natCharsAux, h10, if_true]
      simp [digitsVal, digitChar_toNat n h10]
    · simp only [natChars, natCharsAux, h10, if_false]
      rw [natCharsAux_eq_natChars (n / 10) n (Nat.div_lt_self (by omega) (by omega))]
      rw [digitsVal_append, ih (n / 10) (Nat.div_lt_self (by omega) (by omega)),
        digitChar_toNat (n % 10) (Nat.mod_lt _ (by omega))]
      omega

theorem takeWhile_append_exact (p : Char → Bool) (l1 l2 : List Char)
    (h1 : ∀ c ∈ l1, p c = true) (h2 : ∀ c, l2.head? = some c → p c = false) :
    (l1 ++ l2).takeWhile p = l1 ∧ (l1 ++ l2).dropWhile p = l2 := by
  induction l1 with
  | nil =>
    simp only [List.nil_append]
    cases l2 with
    | nil => exact ⟨rfl, rfl⟩
    | cons c cs =>
      have := h2 c rfl
      simp [List.takeWhile, List.dropWhile, this]
  | cons c cs ih =>
    have hc := h1 c (List.mem_cons_self _ _)
    have ihr := ih (fun x hx => h1 x (List.mem_cons_of_mem _ hx))
    simp [List.takeWhile, List.dropWhile, hc, ihr.1, ihr.2]

theorem takeDigits1_natChars (n : Nat) (rest : List Char)
    (hrest : ∀ c, rest.head? = some c → isDigitChar c = false) :
    takeDigits1 (natChars n ++ rest) = some (natChars n, rest) := by
  obtain ⟨ht, hd⟩ := takeWhile_append_exact (fun c => isDigitChar c) (natChars n) rest
    (natChars_all_digits n) hrest
  simp only [takeDigits1, ht, hd]
  have hne := natChars_ne_nil n
  cases hnc : natChars n with
  | nil => exact absurd hnc hne
  | cons c cs => rfl

theorem parseNat_natChars (n : Nat) (rest : List Char)
    (hrest : ∀ c, rest.head? = some c → isDigitChar c = false) :
    parseNat (natChars n ++ rest) = some (n, rest) := by
  simp only [parseNat, takeDigits1_natChars n rest hrest, digitsVal_natChars]

theorem digit_ne_minus (c : Char) (h : isDigitChar c = true) : c ≠ '-' := by
  intro he
  rw [he] at h
  exact absurd h (by decide)

theorem parseInt_intChars (n : Int) (rest : List Char)
    (hrest : ∀ c, rest.head? = some c → isDigitChar c = false) :
    parseInt (intChars n ++ rest) = some (n, rest) := by
  by_cases hneg : n < 0
  · simp only [intChars, hneg, if_true, List.cons_append]
    have step : parseInt ('-' :: (natChars (-n).toNat ++ rest)) =
        match parseNat (natChars (-n).toNat ++ rest) with
        | some (m, r) => some (-(m : Int), r)
        | none => none := rfl
    rw [step, parseNat_natChars _ _ hrest]
    have hcast : (((-n).toNat : Nat) : Int) = -n := Int.toNat_of_nonneg (by omega)
    simp only [hcast, neg_neg]
  · simp only [intChars, hneg, if_false]
    cases hnc : natChars n.toNat with
    | nil => exact absurd hnc (natChars_ne_nil _)
    | cons c cs =>
      have hcdig : isDigitChar c = true :=
        natChars_all_digits _ c (by rw [hnc]; exact List.mem_cons_self _ _)
      have hcne : c ≠ '-' := digit_ne_minus c hcdig
      rw [List.cons_append]
      have step : parseInt (c :: (cs ++ rest)) =
          match parseNat (c :: (cs ++ rest)) with
          | some (m, r) => some ((m : Int), r)
          | none => none := by
        rw [parseInt.eq_def]
        split
        · rename_i heq
          exact absurd (List.head_eq_of_cons_eq heq).symm hcne.symm
        · rfl
      rw [step, ← List.cons_append, ← hnc, parseNat_natChars _ _ hrest]
      have hcast : ((n.toNat : Nat) : Int) = n := Int.toNat_of_nonneg (by omega)
      simp only [hcast]

/-! ## Decoder round-trip: strings -/

theorem char_valid_ranges (c : Char) :
    c.toNat < 55296 ∨ 57343 < c.toNat ∧ c.toNat < 1114112 := c.valid

theorem toNat_ofNat_valid (m : Nat) (h : m.isValidChar) : (Char.ofNat m).toNat = m := by
  unfold Char.ofNat
  rw [dif_pos h]
  rfl

theorem hexCharVal_hexDigitChar (k : Nat) (h : k < 16) :
    hexCharVal? (hexDigitChar k) = some k := by
  interval_cases k <;> rfl

theorem hex4Val_hex4 (n : Nat) (h : n < 65536) :
    hex4Val? (hexDigitChar (n / 4096 % 16)) (hexDigitChar (n / 256 % 16))
      (hexDigitChar (n / 16 % 16)) (hexDigitChar (n % 16)) = some n := by
  simp only [hex4Val?,
    hexCharVal_hexDigitChar (n / 4096 % 16) (Nat.mod_lt _ (by omega)),
    hexCharVal_hexDigitChar (n / 256 % 16) (Nat.mod_lt _ (by omega)),
    hexCharVal_hexDigitChar (n / 16 % 16) (Nat.mod_lt _ (by omega)),
    hexCharVal_hexDigitChar (n % 16) (Nat.mod_lt _ (by omega))]
  congr 1
  omega

theorem parseJUnits_cons (c : Char) (h1 : c ≠ '"') (h2 : c ≠ '\\') (cs : List Char) :
    parseJUnits (c :: cs) =
      match parseJUnits cs with
      | some (us, r) => some (c.toNat :: us, r)
      | none => none := by
  rw [parseJUnits.eq_def]
  split
  · rename_i heq; exact absurd heq (by simp)
  · rename_i heq
    injection heq with he _
    exact absurd he.symm h1.symm
  · rename_i heq
    injection heq with he _
    exact absurd he.symm h2.symm
  · rename_i heq
    injection heq with he _
    exact absurd he.symm h2.symm
  · rename_i heq
    injection heq with h3 h4
    subst h3
    subst h4
    rfl

/-- One-step evaluation of the decoder on a unicode escape. -/
theorem parseJUnits_uu (a b c d : Char) (t : List Char) :
    parseJUnits ('\\' :: 'u' :: a :: b :: c :: d :: t) =
      match hex4Val? a b c d with
      | none => none
      | some code =>
        match parseJUnits t with
        | some (us, r) => some (code :: us, r)
        | none => none := rfl

/-- Fully applied form of `parseJUnits_uu` for successful sub-parses. -/
theorem parseJUnits_uu_ok (a b c d : Char) (t : List Char) (code : Nat) (us : List Nat)
    (r : List Char) (h : hex4Val? a b c d = some code) (ht : parseJUnits t = some (us, r)) :
    parseJUnits ('\\' :: 'u' :: a :: b :: c :: d :: t) = some (code :: us, r) := by
  rw [parseJUnits_uu, h, ht]

theorem parseJUnits_escape (s : List Char) (rest : List Char) :
    parseJUnits ((s.map escChar).flatten ++ ('"' :: rest)) =
      some ((s.map unitsOfChar).flatten, rest) := by
  induction s with
  | nil => rfl
  | cons c s ih =>
    simp only [List.map_cons, List.flatten_cons, List.append_assoc]
    set X := (List.map escChar s).flatten ++ ('"' :: rest) with hX
    by_cases h1 : c = '\\'
    · subst h1
      have step : parseJUnits (escChar '\\' ++ X) =
          match parseJUnits X with
          | some (us, r) => some (('\\').toNat :: us, r)
          | none => none := rfl
      rw [step, ih]
      rfl
    by_cases h2 : c = '"'
    · subst h2
      have step : parseJUnits (escChar '"' ++ X) =
          match parseJUnits X with
          | some (us, r) => some (('"').toNat :: us, r)
          | none => none := rfl
      rw [step, ih]
      rfl
    by_cases h3 : c = Char.ofNat 8
    · subst h3
      have step : parseJUnits (escChar (Char.ofNat 8) ++ X) =
          match parseJUnits X with
          | some (us, r) => some ((Char.ofNat 8).toNat :: us, r)
          | none => none := rfl
      rw [step, ih]
      rfl
    by_cases h4 : c = Char.ofNat 12
    · subst h4
      have step : parseJUnits (escChar (Char.ofNat 12) ++ X) =
          match parseJUnits X with
          | some (us, r) => some ((Char.ofNat 12).toNat :: us, r)
          | none => none := rfl
      rw [step, ih]
      rfl
    by_cases h5 : c = Char.ofNat 10
    · subst h5
      have step : parseJUnits (escChar (Char.ofNat 10) ++ X) =
          match parseJUnits X with
          | some (us, r) => some ((Char.ofNat 10).toNat :: us, r)
          | none => none := rfl
      rw [step, ih]
      rfl
    by_cases h6 : c = Char.ofNat 13
    · subst h6
      have step : parseJUnits (escChar (Char.ofNat 13) ++ X) =
          match parseJUnits X with
          | some (us, r) => some ((Char.ofNat 13).toNat :: us, r)
          | none => none := rfl
      rw [step, ih]
      rfl
    by_cases h7 : c = Char.ofNat 9
    · subst h7
      have step : parseJUnits (escChar (Char.ofNat 9) ++ X) =
          match parseJUnits X with
          | some (us, r) => some ((Char.ofNat 9).toNat :: us, r)
          | none => none := rfl
      rw [step, ih]
      rfl
    by_cases h8 : 0x20 ≤ c.toNat ∧ c.toNat < 0x7f
    · have hesc : escChar c = [c] := by
        unfold escChar
        rw [if_neg h1, if_neg h2, if_neg h3, if_neg h4, if_neg h5, if_neg h6, if_neg h7,
          if_pos h8]
      have hu : unitsOfChar c = [c.toNat] := by
        simp only [unitsOfChar, if_pos (by omega : c.toNat < 0x10000)]
      rw [hesc, hu, List.singleton_append, List.singleton_append,
        parseJUnits_cons c h2 h1, ih]
    by_cases h9 : c.toNat < 0x10000
    · have hesc : escChar c = '\\' :: 'u' :: hex4 c.toNat := by
        unfold escChar
        rw [if_neg h1, if_neg h2, if_neg h3, if_neg h4, if_neg h5, if_neg h6, if_neg h7,
          if_neg h8, if_pos h9]
      have hu : unitsOfChar c = [c.toNat] := by
        simp only [unitsOfChar, if_pos h9]
      rw [hesc, hu, hex4]
      simp only [List.cons_append, List.nil_append]
      exact parseJUnits_uu_ok _ _ _ _ _ _ _ _ (hex4Val_hex4 c.toNat h9) ih
    · have hv := char_valid_ranges c
      have hesc : escChar c = '\\' :: 'u' :: hex4 (0xd800 + (c.toNat - 0x10000) / 0x400) ++
          ('\\' :: 'u' :: hex4 (0xdc00 + (c.toNat - 0x10000) % 0x400)) := by
        unfold escChar
        rw [if_neg h1, if_neg h2, if_neg h3, if_neg h4, if_neg h5, if_neg h6, if_neg h7,
          if_neg h8, if_neg h9]
      have hu : unitsOfChar c = [0xd800 + (c.toNat - 0x10000) / 0x400,
          0xdc00 + (c.toNat - 0x10000) % 0x400] := by
        simp only [unitsOfChar, if_neg (by omega : ¬ c.toNat < 0x10000)]
      have hhi : 0xd800 + (c.toNat - 0x10000) / 0x400 < 65536 := by
        have : (c.toNat - 0x10000) / 0x400 < 0x400 := by omega
        omega
      have hlo : 0xdc00 + (c.toNat - 0x10000) % 0x400 < 65536 := by
        have : (c.toNat - 0x10000) % 0x400 < 0x400 := Nat.mod_lt _ (by omega)
        omega
      rw [hesc, hu, hex4, hex4]
      simp only [List.cons_append, List.nil_append]
      exact parseJUnits_uu_ok _ _ _ _ _ _ _ _ (hex4Val_hex4 _ hhi)
        (parseJUnits_uu_ok _ _ _ _ _ _ _ _ (hex4Val_hex4 _ hlo) ih)

/-- One-step evaluation of `combineUnits` on a non-surrogate unit. -/
theorem combineUnits_bmp (u : Nat) (us : List Nat) (cs : List Char)
    (h1 : ¬ (0xd800 ≤ u ∧ u < 0xdc00)) (h2 : ¬ (0xdc00 ≤ u ∧ u < 0xe000))
    (ht : combineUnits us = some cs) :
    combineUnits (u :: us) = some (Char.ofNat u :: cs) := by
  rw [combineUnits.eq_def]
  simp only []
  rw [if_neg h1, if_neg h2, ht]

/-- One-step evaluation of `combineUnits` on a surrogate pair. -/
theorem combineUnits_pair (u lo : Nat) (us : List Nat) (cs : List Char)
    (h1 : 0xd800 ≤ u ∧ u < 0xdc00) (h2 : 0xdc00 ≤ lo ∧ lo < 0xe000)
    (ht : combineUnits us = some cs) :
    combineUnits (u :: lo :: us) =
      some (Char.ofNat (0x10000 + (u - 0xd800) * 0x400 + (lo - 0xdc00)) :: cs) := by
  rw [combineUnits.eq_def]
  simp only []
  rw [if_pos h1, if_pos h2, ht]

theorem combineUnits_flatten (s : List Char) :
    combineUnits ((s.map unitsOfChar).flatten) = some s := by
  induction s with
  | nil => rfl
  | cons c s ih =>
    simp only [List.map_cons, List.flatten_cons]
    have hv := char_valid_ranges c
    by_cases h9 : c.toNat < 0x10000
    · have hu : unitsOfChar c = [c.toNat] := by simp only [unitsOfChar, if_pos h9]
      rw [hu, List.singleton_append]
      rw [combineUnits_bmp c.toNat ((s.map unitsOfChar).flatten) s
        (by omega) (by omega) ih]
      rw [Char.ofNat_toNat]
    · have hu : unitsOfChar c = [0xd800 + (c.toNat - 0x10000) / 0x400,
          0xdc00 + (c.toNat - 0x10000) % 0x400] := by
        simp only [unitsOfChar, if_neg h9]
      have hdiv : (c.toNat - 0x10000) / 0x400 < 0x400 := by omega
      have hmod : (c.toNat - 0x10000) % 0x400 < 0x400 := Nat.mod_lt _ (by omega)
      rw [hu]
      simp only [List.cons_append, List.nil_append]
      rw [combineUnits_pair (0xd800 + (c.toNat - 0x10000) / 0x400)
        (0xdc00 + (c.toNat - 0x10000) % 0x400) ((s.map unitsOfChar).flatten) s
        (by omega) (by omega) ih]
      have harith : 0x10000 + (0xd800 + (c.toNat - 0x10000) / 0x400 - 0xd800) * 0x400 +
          (0xdc00 + (c.toNat - 0x10000) % 0x400 - 0xdc00) = c.toNat := by omega
      rw [harith, Char.ofNat_toNat]

/-- One-step evaluation of `parseJStr` when both phases succeed. -/
theorem parseJStr_step (t : List Char) (us : List Nat) (r : List Char) (cs : List Char)
    (h1 : parseJUnits t = some (us, r)) (h2 : combineUnits us = some cs) :
    parseJStr ('"' :: t) = some (String.mk cs, r) := by
  have hstep : parseJStr ('"' :: t) =
      match combineUnits us with
      | some cs2 => some (String.mk cs2, r)
      | none => none := by
    show (match parseJUnits t with
      | some (us2, r2) =>
        match combineUnits us2 with
        | some cs2 => some (String.mk cs2, r2)
        | none => none
      | none => none) = _
    rw [h1]
  rw [hstep, h2]

theorem parseJStr_enc (s : String) (rest : List Char) :
    parseJStr (encStrChars s ++ rest) = some (s, rest) := by
  have hshape : encStrChars s ++ rest =
      '"' :: ((s.data.map escChar).flatten ++ ('"' :: rest)) := by
    simp [encStrChars]
  rw [hshape]
  rw [parseJStr_step _ _ _ _ (parseJUnits_escape s.data rest) (combineUnits_flatten s.data)]


/-! ## Decoder round-trip: frames and signatures

Closed forms of the encoder on the typed frame model, followed by the
decoder's inversion of each of them.  The closed forms spell out the
sorted key order that `encDictBody` produces for each frame shape. -/

theorem entryEnc (e : SettingEntry) : pyEncode (entryToDict e) = entryChars e := by
  cases e with
  | valid k v =>
    simp only [entryToDict, pyEncode, pyEncodeFields, encDictBody]
    rw [show sortPairs [("id", intChars k), ("value", intChars v)] =
      [("id", intChars k), ("value", intChars v)] from by
        simp +decide [sortPairs, List.insertionSort, List.orderedInsert, pairLe]]
    simp only [List.map_cons, List.map_nil, joinSep, entryChars]
    rw [show encStrChars "id" = "\"id\"".data from by decide,
      show encStrChars "value" = "\"value\"".data from by decide]
    simp only [colonSp, commaSp, List.append_assoc, List.cons_append, List.nil_append]
  | grease => decide

theorem pyEncodeList_entries (es : List SettingEntry) :
    pyEncodeList (es.map entryToDict) = es.map entryChars := by
  rw [pyEncodeList_eq_map, List.map_map]
  exact List.map_congr_left (fun e _ => entryEnc e)

theorem pyEncodeList_strs (ss : List String) :
    pyEncodeList (ss.map PyVal.vstr) = ss.map encStrChars := by
  rw [pyEncodeList_eq_map, List.map_map]
  exact List.map_congr_left (fun x _ => rfl)

theorem frameEnc_settings (sid : Option Int) (es : List SettingEntry) :
    pyEncode (frameToDict (.settings sid es)) =
      (Char.ofNat 123 :: "\"frame_type\": ".data) ++ (encStrChars "SETTINGS" ++
        (", \"settings\": [".data ++ (joinSep commaSp (es.map entryChars) ++
          (']' :: sidTailChars sid)))) := by
  cases sid with
  | none =>
    simp only [frameToDict, sidFields, List.nil_append, List.append_nil, List.cons_append,
      pyEncode, pyEncodeFields, encDictBody, pyEncodeList_entries, sidTailChars]
    rw [show sortPairs [("frame_type", encStrChars "SETTINGS"),
        ("settings", '[' :: (joinSep commaSp (es.map entryChars) ++ [']']))] =
      [("frame_type", encStrChars "SETTINGS"),
        ("settings", '[' :: (joinSep commaSp (es.map entryChars) ++ [']']))] from by
        simp +decide [sortPairs, List.insertionSort, List.orderedInsert, pairLe]]
    simp only [List.map_cons, List.map_nil, joinSep]
    rw [show encStrChars "frame_type" = "\"frame_type\"".data from by decide,
      show encStrChars "settings" = "\"settings\"".data from by decide,
      show encStrChars "SETTINGS" = "\"SETTINGS\"".data from by decide]
    simp only [colonSp, commaSp, List.append_assoc, List.cons_append, List.nil_append]
  | some n =>
    simp only [frameToDict, sidFields, List.cons_append, List.nil_append, pyEncode,
      pyEncodeFields, encDictBody, pyEncodeList_entries, sidTailChars]
    rw [show sortPairs [("frame_type", encStrChars "SETTINGS"), ("stream_id", intChars n),
        ("settings", '[' :: (joinSep commaSp (es.map entryChars) ++ [']']))] =
      [("frame_type", encStrChars "SETTINGS"),
        ("settings", '[' :: (joinSep commaSp (es.map entryChars) ++ [']'])),
        ("stream_id", intChars n)] from by
        simp +decide [sortPairs, List.insertionSort, List.orderedInsert, pairLe]]
    simp only [List.map_cons, List.map_nil, joinSep]
    rw [show encStrChars "frame_type" = "\"frame_type\"".data from by decide,
      show encStrChars "settings" = "\"settings\"".data from by decide,
      show encStrChars "stream_id" = "\"stream_id\"".data from by decide,
      show encStrChars "SETTINGS" = "\"SETTINGS\"".data from by decide]
    simp only [colonSp, commaSp, List.append_assoc, List.cons_append, List.nil_append]

theorem frameEnc_wu (sid : Option Int) (w : Int) :
    pyEncode (frameToDict (.windowUpdate sid w)) =
      (Char.ofNat 123 :: "\"frame_type\": ".data) ++ (encStrChars "WINDOW_UPDATE" ++
        ((match sid with
          | some n => ", \"stream_id\": ".data ++ intChars n
          | none => ([] : List Char)) ++
          (", \"window_size_increment\": ".data ++ (intChars w ++ [Char.ofNat 125])))) := by
  cases sid with
  | none =>
    simp only [frameToDict, sidFields, List.nil_append, List.append_nil, List.cons_append,
      pyEncode, pyEncodeFields, encDictBody]
    rw [show sortPairs [("frame_type", encStrChars "WINDOW_UPDATE"),
        ("window_size_increment", intChars w)] =
      [("frame_type", encStrChars "WINDOW_UPDATE"),
        ("window_size_increment", intChars w)] from by
        simp +decide [sortPairs, List.insertionSort, List.orderedInsert, pairLe]]
    simp only [List.map_cons, List.map_nil, joinSep]
    rw [show encStrChars "frame_type" = "\"frame_type\"".data from by decide,
      show encStrChars "window_size_increment" = "\"window_size_increment\"".data from by decide,
      show encStrChars "WINDOW_UPDATE" = "\"WINDOW_UPDATE\"".data from by decide]
    simp only [colonSp, commaSp, List.append_assoc, List.cons_append, List.nil_append]
  | some n =>
    simp only [frameToDict, sidFields, List.cons_append, List.nil_append, pyEncode,
      pyEncodeFields, encDictBody]
    rw [show sortPairs [("frame_type", encStrChars "WINDOW_UPDATE"), ("stream_id", intChars n),
        ("window_size_increment", intChars w)] =
      [("frame_type", encStrChars "WINDOW_UPDATE"), ("stream_id", intChars n),
        ("window_size_increment", intChars w)] from by
        simp +decide [sortPairs, List.insertionSort, List.orderedInsert, pairLe]]
    simp only [List.map_cons, List.map_nil, joinSep]
    rw [show encStrChars "frame_type" = "\"frame_type\"".data from by decide,
      show encStrChars "stream_id" = "\"stream_id\"".data from by decide,
      show encStrChars "window_size_increment" = "\"window_size_increment\"".data from by decide,
      show encStrChars "WINDOW_UPDATE" = "\"WINDOW_UPDATE\"".data from by decide]
    simp only [colonSp, commaSp, List.append_assoc, List.cons_append, List.nil_append]

theorem frameEnc_headers (sid : Option Int) (ph : List String) :
    pyEncode (frameToDict (.headers sid ph)) =
      (Char.ofNat 123 :: "\"frame_type\": ".data) ++ (encStrChars "HEADERS" ++
        (", \"pseudo_headers\": [".data ++ (joinSep commaSp (ph.map encStrChars) ++
          (']' :: sidTailChars sid)))) := by
  cases sid with
  | none =>
    simp only [frameToDict, sidFields, List.nil_append, List.append_nil, List.cons_append,
      pyEncode, pyEncodeFields, encDictBody, pyEncodeList_strs, sidTailChars]
    rw [show sortPairs [("frame_type", encStrChars "HEADERS"),
        ("pseudo_headers", '[' :: (joinSep commaSp (ph.map encStrChars) ++ [']']))] =
      [("frame_type", encStrChars "HEADERS"),
        ("pseudo_headers", '[' :: (joinSep commaSp (ph.map encStrChars) ++ [']']))] from by
        simp +decide [sortPairs, List.insertionSort, List.orderedInsert, pairLe]]
    simp only [List.map_cons, List.map_nil, joinSep]
    rw [show encStrChars "frame_type" = "\"frame_type\"".data from by decide,
      show encStrChars "pseudo_headers" = "\"pseudo_headers\"".data from by decide,
      show encStrChars "HEADERS" = "\"HEADERS\"".data from by decide]
    simp only [colonSp, commaSp, List.append_assoc, List.cons_append, List.nil_append]
  | some n =>
    simp only [frameToDict, sidFields, List.cons_append, List.nil_append, pyEncode,
      pyEncodeFields, encDictBody, pyEncodeList_strs, sidTailChars]
    rw [show sortPairs [("frame_type", encStrChars "HEADERS"), ("stream_id", intChars n),
        ("pseudo_headers", '[' :: (joinSep commaSp (ph.map encStrChars) ++ [']']))] =
      [("frame_type", encStrChars "HEADERS"),
        ("pseudo_headers", '[' :: (joinSep commaSp (ph.map encStrChars) ++ [']'])),
        ("stream_id", intChars n)] from by
        simp +decide [sortPairs, List.insertionSort, List.orderedInsert, pairLe]]
    simp only [List.map_cons, List.map_nil, joinSep]
    rw [show encStrChars "frame_type" = "\"frame_type\"".data from by decide,
      show encStrChars "pseudo_headers" = "\"pseudo_headers\"".data from by decide,
      show encStrChars "stream_id" = "\"stream_id\"".data from by decide,
      show encStrChars "HEADERS" = "\"HEADERS\"".data from by decide]
    simp only [colonSp, commaSp, List.append_assoc, List.cons_append, List.nil_append]

theorem priorityInnerEnc (d w : Int) (e : Bool) :
    pyEncode (.vdict [("dep_stream_id", .vint d), ("weight", .vint w),
        ("exclusive", .vbool e)]) =
      (Char.ofNat 123 :: "\"dep_stream_id\": ".data) ++ (intChars d ++
        (", \"exclusive\": ".data ++ ((if e then "true".data else "false".data) ++
          (", \"weight\": ".data ++ (intChars w ++ [Char.ofNat 125]))))) := by
  simp only [pyEncode, pyEncodeFields, encDictBody]
  rw [show sortPairs [("dep_stream_id", intChars d), ("weight", intChars w),
      ("exclusive", if e then "true".data else "false".data)] =
    [("dep_stream_id", intChars d), ("exclusive", if e then "true".data else "false".data),
      ("weight", intChars w)] from by
      simp +decide [sortPairs, List.insertionSort, List.orderedInsert, pairLe]]
  simp only [List.map_cons, List.map_nil, joinSep]
  rw [show encStrChars "dep_stream_id" = "\"dep_stream_id\"".data from by decide,
    show encStrChars "exclusive" = "\"exclusive\"".data from by decide,
    show encStrChars "weight" = "\"weight\"".data from by decide]
  simp only [colonSp, commaSp, List.append_assoc, List.cons_append, List.nil_append]

theorem frameEnc_priority (sid : Option Int) (d w : Int) (e : Bool) :
    pyEncode (frameToDict (.priority sid d w e)) =
      (Char.ofNat 123 :: "\"frame_type\": ".data) ++ (encStrChars "PRIORITY" ++
        ((", \"priority\": ".data ++ (Char.ofNat 123 :: "\"dep_stream_id\": ".data)) ++
          (intChars d ++ (", \"exclusive\": ".data ++
            ((if e then "true".data else "false".data) ++ (", \"weight\": ".data ++
              (intChars w ++ (Char.ofNat 125 :: sidTailChars sid)))))))) := by
  cases sid with
  | none =>
    rw [show frameToDict (Frame.priority none d w e) = PyVal.vdict
        [("frame_type", PyVal.vstr "PRIORITY"),
         ("priority", PyVal.vdict [("dep_stream_id", PyVal.vint d),
           ("weight", PyVal.vint w), ("exclusive", PyVal.vbool e)])] from by
      simp [frameToDict, sidFields]]
    rw [show pyEncode (PyVal.vdict [("frame_type", PyVal.vstr "PRIORITY"),
        ("priority", PyVal.vdict [("dep_stream_id", PyVal.vint d),
          ("weight", PyVal.vint w), ("exclusive", PyVal.vbool e)])]) =
      encDictBody [("frame_type", encStrChars "PRIORITY"),
        ("priority", pyEncode (PyVal.vdict [("dep_stream_id", PyVal.vint d),
          ("weight", PyVal.vint w), ("exclusive", PyVal.vbool e)]))] from rfl]
    rw [priorityInnerEnc d w e]
    rw [show encDictBody [("frame_type", encStrChars "PRIORITY"),
        ("priority", (Char.ofNat 123 :: "\"dep_stream_id\": ".data) ++ (intChars d ++
          (", \"exclusive\": ".data ++ ((if e then "true".data else "false".data) ++
            (", \"weight\": ".data ++ (intChars w ++ [Char.ofNat 125]))))))] =
      Char.ofNat 123 :: (joinSep commaSp
        [encStrChars "frame_type" ++ colonSp ++ encStrChars "PRIORITY",
         encStrChars "priority" ++ colonSp ++
           ((Char.ofNat 123 :: "\"dep_stream_id\": ".data) ++ (intChars d ++
             (", \"exclusive\": ".data ++ ((if e then "true".data else "false".data) ++
               (", \"weight\": ".data ++ (intChars w ++ [Char.ofNat 125]))))))] ++
        [Char.ofNat 125]) from by
      simp only [encDictBody]
      rw [show sortPairs [("frame_type", encStrChars "PRIORITY"),
          ("priority", (Char.ofNat 123 :: "\"dep_stream_id\": ".data) ++ (intChars d ++
            (", \"exclusive\": ".data ++ ((if e then "true".data else "false".data) ++
              (", \"weight\": ".data ++ (intChars w ++ [Char.ofNat 125]))))))] =
        [("frame_type", encStrChars "PRIORITY"),
          ("priority", (Char.ofNat 123 :: "\"dep_stream_id\": ".data) ++ (intChars d ++
            (", \"exclusive\": ".data ++ ((if e then "true".data else "false".data) ++
              (", \"weight\": ".data ++ (intChars w ++ [Char.ofNat 125]))))))] from by
          simp +decide [sortPairs, List.insertionSort, List.orderedInsert, pairLe]]
      simp only [List.map_cons, List.map_nil]]
    simp only [joinSep, sidTailChars]
    rw [show encStrChars "frame_type" = "\"frame_type\"".data from by decide,
      show encStrChars "priority" = "\"priority\"".data from by decide,
      show encStrChars "PRIORITY" = "\"PRIORITY\"".data from by decide]
    simp only [colonSp, commaSp, List.append_assoc, List.cons_append, List.nil_append]
  | some n =>
    rw [show frameToDict (Frame.priority (some n) d w e) = PyVal.vdict
        [("frame_type", PyVal.vstr "PRIORITY"), ("stream_id", PyVal.vint n),
         ("priority", PyVal.vdict [("dep_stream_id", PyVal.vint d),
           ("weight", PyVal.vint w), ("exclusive", PyVal.vbool e)])] from by
      simp [frameToDict, sidFields]]
    rw [show pyEncode (PyVal.vdict [("frame_type", PyVal.vstr "PRIORITY"),
        ("stream_id", PyVal.vint n),
        ("priority", PyVal.vdict [("dep_stream_id", PyVal.vint d),
          ("weight", PyVal.vint w), ("exclusive", PyVal.vbool e)])]) =
      encDictBody [("frame_type", encStrChars "PRIORITY"), ("stream_id", intChars n),
        ("priority", pyEncode (PyVal.vdict [("dep_stream_id", PyVal.vint d),
          ("weight", PyVal.vint w), ("exclusive", PyVal.vbool e)]))] from rfl]
    rw [priorityInnerEnc d w e]
    rw [show encDictBody [("frame_type", encStrChars "PRIORITY"), ("stream_id", intChars n),
        ("priority", (Char.ofNat 123 :: "\"dep_stream_id\": ".data) ++ (intChars d ++
          (", \"exclusive\": ".data ++ ((if e then "true".data else "false".data) ++
            (", \"weight\": ".data ++ (intChars w ++ [Char.ofNat 125]))))))] =
      Char.ofNat 123 :: (joinSep commaSp
        [encStrChars "frame_type" ++ colonSp ++ encStrChars "PRIORITY",
         encStrChars "priority" ++ colonSp ++
           ((Char.ofNat 123 :: "\"dep_stream_id\": ".data) ++ (intChars d ++
             (", \"exclusive\": ".data ++ ((if e then "true".data else "false".data) ++
               (", \"weight\": ".data ++ (intChars w ++ [Char.ofNat 125])))))),
         encStrChars "stream_id" ++ colonSp ++ intChars n] ++
        [Char.ofNat 125]) from by
      simp only [encDictBody]
      rw [show sortPairs [("frame_type", encStrChars "PRIORITY"), ("stream_id", intChars n),
          ("priority", (Char.ofNat 123 :: "\"dep_stream_id\": ".data) ++ (intChars d ++
            (", \"exclusive\": ".data ++ ((if e then "true".data else "false".data) ++
              (", \"weight\": ".data ++ (intChars w ++ [Char.ofNat 125]))))))] =
        [("frame_type", encStrChars "PRIORITY"),
          ("priority", (Char.ofNat 123 :: "\"dep_stream_id\": ".data) ++ (intChars d ++
            (", \"exclusive\": ".data ++ ((if e then "true".data else "false".data) ++
              (", \"weight\": ".data ++ (intChars w ++ [Char.ofNat 125])))))),
          ("stream_id", intChars n)] from by
          simp +decide [sortPairs, List.insertionSort, List.orderedInsert, pairLe]]
      simp only [List.map_cons, List.map_nil]]
    simp only [joinSep, sidTailChars]
    rw [show encStrChars "frame_type" = "\"frame_type\"".data from by decide,
      show encStrChars "priority" = "\"priority\"".data from by decide,
      show encStrChars "stream_id" = "\"stream_id\"".data from by decide,
      show encStrChars "PRIORITY" = "\"PRIORITY\"".data from by decide]
    simp only [colonSp, commaSp, List.append_assoc, List.cons_append, List.nil_append]

theorem frameEnc_other (ft : String) (sid : Option Int) :
    pyEncode (frameToDict (.other ft sid)) =
      (Char.ofNat 123 :: "\"frame_type\": ".data) ++ (encStrChars ft ++ sidTailChars sid) := by
  cases sid with
  | none =>
    simp only [frameToDict, sidFields, List.append_nil, pyEncode, pyEncodeFields,
      encDictBody, sidTailChars]
    rw [show sortPairs [("frame_type", encStrChars ft)] = [("frame_type", encStrChars ft)]
      from rfl]
    simp only [List.map_cons, List.map_nil, joinSep]
    rw [show encStrChars "frame_type" = "\"frame_type\"".data from by decide]
    simp only [colonSp, commaSp, List.append_assoc, List.cons_append, List.nil_append]
  | some n =>
    simp only [frameToDict, sidFields, List.cons_append, List.nil_append, pyEncode,
      pyEncodeFields, encDictBody, sidTailChars]
    rw [show sortPairs [("frame_type", encStrChars ft), ("stream_id", intChars n)] =
      [("frame_type", encStrChars ft), ("stream_id", intChars n)] from by
        simp +decide [sortPairs, List.insertionSort, List.orderedInsert, pairLe]]
    simp only [List.map_cons, List.map_nil, joinSep]
    rw [show encStrChars "frame_type" = "\"frame_type\"".data from by decide,
      show encStrChars "stream_id" = "\"stream_id\"".data from by decide]
    simp only [colonSp, commaSp, List.append_assoc, List.cons_append, List.nil_append]

theorem sigEnc (s : HTTP2Signature) :
    pyEncode (sigToDict s) =
      (Char.ofNat 123 :: "\"frames\": [".data) ++
        (joinSep commaSp (s.frames.map (fun f => pyEncode (frameToDict f))) ++
          (']' :: [Char.ofNat 125])) := by
  simp only [sigToDict, pyEncode, pyEncodeFields, encDictBody]
  rw [pyEncodeList_eq_map, List.map_map]
  rw [show sortPairs [("frames", '[' ::
      (joinSep commaSp (List.map (pyEncode ∘ frameToDict) s.frames) ++ [']']))] =
    [("frames", '[' ::
      (joinSep commaSp (List.map (pyEncode ∘ frameToDict) s.frames) ++ [']']))] from rfl]
  simp only [List.map_cons, List.map_nil, joinSep]
  rw [show encStrChars "frames" = "\"frames\"".data from by decide]
  rw [show List.map (pyEncode ∘ frameToDict) s.frames =
    s.frames.map (fun f => pyEncode (frameToDict f)) from rfl]
  simp only [colonSp, commaSp, List.append_assoc, List.cons_append, List.nil_append]

theorem head_not_digit {rest : List Char} {c : Char} (h : rest.head? = some c)
    (hc : isDigitChar c = false) : ∀ d, rest.head? = some d → isDigitChar d = false := by
  intro d hd
  rw [h] at hd
  injection hd with he
  rw [← he]
  exact hc

theorem takeLit_none_intChars (c : Char) (l : List Char) (hc : isDigitChar c = false)
    (hm : c ≠ '-') (n : Int) (X : List Char) :
    takeLit (c :: l) (intChars n ++ X) = none := by
  unfold intChars
  by_cases hn : n < 0
  · simp only [if_pos hn, List.cons_append]
    simp [takeLit, hm]
  · simp only [if_neg hn]
    cases hnc : natChars n.toNat with
    | nil => exact absurd hnc (natChars_ne_nil _)
    | cons d ds =>
      have hd : isDigitChar d = true :=
        natChars_all_digits _ d (by rw [hnc]; exact List.mem_cons_self _ _)
      have hne : c ≠ d := by
        intro he
        rw [he] at hc
        rw [hd] at hc
        exact Bool.noConfusion hc
      rw [List.cons_append]
      simp [takeLit, hne]

theorem takeLit_grease_intChars (k : Int) (X : List Char) :
    takeLit "\"GREASE\", \"value\": \"GREASE\"".data (intChars k ++ X) = none := by
  rw [show ("\"GREASE\", \"value\": \"GREASE\"".data : List Char) =
    '"' :: "GREASE\", \"value\": \"GREASE\"".data from rfl]
  exact takeLit_none_intChars '"' _ (by decide) (by decide) k X

theorem parseBool_enc (e : Bool) (rest : List Char) :
    parseBool ((if e then "true".data else "false".data) ++ rest) = some (e, rest) := by
  cases e <;> rfl

theorem parseSidClose_none_step (cs rest : List Char)
    (h : takeLit [Char.ofNat 125] cs = some rest) :
    parseSidClose cs = some (none, rest) := by
  simp only [parseSidClose, h]

theorem parseSidClose_some_step (cs cs1 cs2 rest : List Char) (n : Int)
    (h1 : takeLit [Char.ofNat 125] cs = none)
    (h2 : takeLit ", \"stream_id\": ".data cs = some cs1)
    (h3 : parseInt cs1 = some (n, cs2))
    (h4 : takeLit [Char.ofNat 125] cs2 = some rest) :
    parseSidClose cs = some (some n, rest) := by
  simp only [parseSidClose, h1, h2, h3, h4]

theorem parseSidClose_enc (sid : Option Int) (rest : List Char) :
    parseSidClose (sidTailChars sid ++ rest) = some (sid, rest) := by
  cases sid with
  | none => exact parseSidClose_none_step _ rest rfl
  | some n =>
    have hshape : sidTailChars (some n) ++ rest =
        ", \"stream_id\": ".data ++ (intChars n ++ ([Char.ofNat 125] ++ rest)) := by
      simp [sidTailChars, List.append_assoc]
    rw [hshape]
    exact parseSidClose_some_step _ _ _ rest n rfl (takeLit_append _ _)
      (parseInt_intChars n _ (head_not_digit rfl (by decide))) (takeLit_append _ _)

theorem parseEntry_valid_step (cs cs1 cs2 cs3 cs4 rest : List Char) (k v : Int)
    (h1 : takeLit (Char.ofNat 123 :: "\"id\": ".data) cs = some cs1)
    (hg : takeLit "\"GREASE\", \"value\": \"GREASE\"".data cs1 = none)
    (h2 : parseInt cs1 = some (k, cs2))
    (h3 : takeLit ", \"value\": ".data cs2 = some cs3)
    (h4 : parseInt cs3 = some (v, cs4))
    (h5 : takeLit [Char.ofNat 125] cs4 = some rest) :
    parseEntry cs = some (.valid k v, rest) := by
  simp only [parseEntry, h1, hg, h2, h3, h4, h5]

theorem parseEntry_grease_step (cs cs1 cs2 rest : List Char)
    (h1 : takeLit (Char.ofNat 123 :: "\"id\": ".data) cs = some cs1)
    (hg : takeLit "\"GREASE\", \"value\": \"GREASE\"".data cs1 = some cs2)
    (h5 : takeLit [Char.ofNat 125] cs2 = some rest) :
    parseEntry cs = some (.grease, rest) := by
  simp only [parseEntry, h1, hg, h5]

theorem parseEntry_enc (e : SettingEntry) (rest : List Char) :
    parseEntry (entryChars e ++ rest) = some (e, rest) := by
  cases e with
  | valid k v =>
    have hshape : entryChars (.valid k v) ++ rest =
        (Char.ofNat 123 :: "\"id\": ".data) ++ (intChars k ++ (", \"value\": ".data ++
          (intChars v ++ ([Char.ofNat 125] ++ rest)))) := by
      simp [entryChars, List.append_assoc]
    rw [hshape]
    exact parseEntry_valid_step _ _ _ _ _ rest k v (takeLit_append _ _)
      (takeLit_grease_intChars k _)
      (parseInt_intChars k _ (head_not_digit rfl (by decide)))
      (takeLit_append _ _)
      (parseInt_intChars v _ (head_not_digit rfl (by decide)))
      (takeLit_append _ _)
  | grease =>
    have hshape : entryChars .grease ++ rest =
        (Char.ofNat 123 :: "\"id\": ".data) ++ ("\"GREASE\", \"value\": \"GREASE\"".data ++
          ([Char.ofNat 125] ++ rest)) := by
      simp [entryChars, List.append_assoc]
    rw [hshape]
    exact parseEntry_grease_step _ _ _ rest (takeLit_append _ _) (takeLit_append _ _)
      (takeLit_append _ _)

theorem entryChars_ne_nil (e : SettingEntry) : entryChars e ≠ [] := by
  cases e <;> simp [entryChars]

theorem encStrChars_ne_nil (s : String) : encStrChars s ≠ [] := by
  simp [encStrChars]

theorem joinSep_commaSp_length (items : List (List Char)) (h : ∀ x ∈ items, x ≠ []) :
    items.length ≤ (joinSep commaSp items).length := by
  induction items with
  | nil => simp [joinSep]
  | cons x xs ih =>
    cases xs with
    | nil =>
      simp only [joinSep, List.length_cons, List.length_nil]
      have hx : x ≠ [] := h x (List.mem_cons_self _ _)
      have := List.length_pos.mpr hx
      omega
    | cons y ys =>
      have hx : x ≠ [] := h x (List.mem_cons_self _ _)
      have hxp := List.length_pos.mpr hx
      have ih' := ih (fun z hz => h z (List.mem_cons_of_mem _ hz))
      simp only [joinSep, List.length_append, List.length_cons, commaSp,
        List.length_nil] at *
      omega

theorem parseEntriesF_done_step (f : Nat) (cs rest : List Char)
    (h : takeLit [']'] cs = some rest) :
    parseEntriesF (f + 1) cs = some ([], rest) := by
  simp only [parseEntriesF, h]

theorem parseEntriesF_last_step (f : Nat) (cs rest : List Char) (e : SettingEntry)
    (h1 : takeLit [']'] cs = none)
    (h2 : parseEntry cs = some (e, ']' :: rest)) :
    parseEntriesF (f + 1) cs = some ([e], rest) := by
  simp only [parseEntriesF, h1, h2]

theorem parseEntriesF_cons_step (f : Nat) (cs cs3 rest : List Char) (e : SettingEntry)
    (es : List SettingEntry)
    (h1 : takeLit [']'] cs = none)
    (h2 : parseEntry cs = some (e, ',' :: ' ' :: cs3))
    (h3 : parseEntriesF f cs3 = some (es, rest)) :
    parseEntriesF (f + 1) cs = some (e :: es, rest) := by
  simp only [parseEntriesF, h1, h2, h3]

theorem takeLit_rb_entry (e : SettingEntry) (X : List Char) :
    takeLit [']'] (entryChars e ++ X) = none := by
  cases e <;> rfl

theorem parseEntriesF_enc : ∀ (es : List SettingEntry) (fuel : Nat) (tail : List Char),
    es.length < fuel →
    parseEntriesF fuel (joinSep commaSp (es.map entryChars) ++ (']' :: tail)) =
      some (es, tail) := by
  intro es
  induction es with
  | nil =>
    intro fuel tail hf
    cases fuel with
    | zero => omega
    | succ f => exact parseEntriesF_done_step f _ tail rfl
  | cons e es ih =>
    intro fuel tail hf
    cases fuel with
    | zero => omega
    | succ f =>
      cases es with
      | nil =>
        have hshape : joinSep commaSp (([e] : List SettingEntry).map entryChars) ++
            (']' :: tail) = entryChars e ++ (']' :: tail) := by
          simp [joinSep]
        rw [hshape]
        exact parseEntriesF_last_step f _ tail e (takeLit_rb_entry e _)
          (parseEntry_enc e (']' :: tail))
      | cons e2 es2 =>
        have hshape : joinSep commaSp ((e :: e2 :: es2).map entryChars) ++ (']' :: tail) =
            entryChars e ++ (',' :: ' ' ::
              (joinSep commaSp ((e2 :: es2).map entryChars) ++ (']' :: tail))) := by
          simp [joinSep, commaSp, List.append_assoc]
        rw [hshape]
        exact parseEntriesF_cons_step f _ _ tail e (e2 :: es2) (takeLit_rb_entry e _)
          (parseEntry_enc e _)
          (ih f tail (by simp only [List.length_cons] at hf ⊢; omega))

theorem parsePHListF_done_step (f : Nat) (cs rest : List Char)
    (h : takeLit [']'] cs = some rest) :
    parsePHListF (f + 1) cs = some ([], rest) := by
  simp only [parsePHListF, h]

theorem parsePHListF_last_step (f : Nat) (cs rest : List Char) (s : String)
    (h1 : takeLit [']'] cs = none)
    (h2 : parseJStr cs = some (s, ']' :: rest)) :
    parsePHListF (f + 1) cs = some ([s], rest) := by
  simp only [parsePHListF, h1, h2]

theorem parsePHListF_cons_step (f : Nat) (cs cs3 rest : List Char) (s : String)
    (ss : List String)
    (h1 : takeLit [']'] cs = none)
    (h2 : parseJStr cs = some (s, ',' :: ' ' :: cs3))
    (h3 : parsePHListF f cs3 = some (ss, rest)) :
    parsePHListF (f + 1) cs = some (s :: ss, rest) := by
  simp only [parsePHListF, h1, h2, h3]

theorem takeLit_rb_encStr (s : String) (X : List Char) :
    takeLit [']'] (encStrChars s ++ X) = none := rfl

theorem parsePHListF_enc : ∀ (ss : List String) (fuel : Nat) (tail : List Char),
    ss.length < fuel →
    parsePHListF fuel (joinSep commaSp (ss.map encStrChars) ++ (']' :: tail)) =
      some (ss, tail) := by
  intro ss
  induction ss with
  | nil =>
    intro fuel tail hf
    cases fuel with
    | zero => omega
    | succ f => exact parsePHListF_done_step f _ tail rfl
  | cons s ss ih =>
    intro fuel tail hf
    cases fuel with
    | zero => omega
    | succ f =>
      cases ss with
      | nil =>
        have hshape : joinSep commaSp (([s] : List String).map encStrChars) ++
            (']' :: tail) = encStrChars s ++ (']' :: tail) := by
          simp [joinSep]
        rw [hshape]
        exact parsePHListF_last_step f _ tail s (takeLit_rb_encStr s _)
          (parseJStr_enc s (']' :: tail))
      | cons s2 ss2 =>
        have hshape : joinSep commaSp ((s :: s2 :: ss2).map encStrChars) ++ (']' :: tail) =
            encStrChars s ++ (',' :: ' ' ::
              (joinSep commaSp ((s2 :: ss2).map encStrChars) ++ (']' :: tail))) := by
          simp [joinSep, commaSp, List.append_assoc]
        rw [hshape]
        exact parsePHListF_cons_step f _ _ tail s (s2 :: ss2) (takeLit_rb_encStr s _)
          (parseJStr_enc s _)
          (ih f tail (by simp only [List.length_cons] at hf ⊢; omega))

theorem frameEnc_wu_some (n w : Int) :
    pyEncode (frameToDict (.windowUpdate (some n) w)) =
      (Char.ofNat 123 :: "\"frame_type\": ".data) ++ (encStrChars "WINDOW_UPDATE" ++
        (", \"stream_id\": ".data ++ (intChars n ++
          (", \"window_size_increment\": ".data ++ (intChars w ++ [Char.ofNat 125]))))) := by
  rw [frameEnc_wu]
  simp [List.append_assoc]

theorem frameEnc_wu_none (w : Int) :
    pyEncode (frameToDict (.windowUpdate none w)) =
      (Char.ofNat 123 :: "\"frame_type\": ".data) ++ (encStrChars "WINDOW_UPDATE" ++
        (", \"window_size_increment\": ".data ++ (intChars w ++ [Char.ofNat 125]))) := by
  rw [frameEnc_wu]
  simp [List.append_assoc]

theorem parseFrame_other_none_step {cs cs1 cs2 rest : List Char} {ft : String}
    (h1 : takeLit (Char.ofNat 123 :: "\"frame_type\": ".data) cs = some cs1)
    (h2 : parseJStr cs1 = some (ft, cs2))
    (h3 : takeLit [Char.ofNat 125] cs2 = some rest) :
    parseFrame cs = some (.other ft none, rest) := by
  simp only [parseFrame, h1, h2, h3]

theorem parseFrame_settings_step {cs cs1 cs2 cs3 cs4 rest : List Char} {ft : String}
    {es : List SettingEntry} {sid : Option Int}
    (h1 : takeLit (Char.ofNat 123 :: "\"frame_type\": ".data) cs = some cs1)
    (h2 : parseJStr cs1 = some (ft, cs2))
    (h3 : takeLit [Char.ofNat 125] cs2 = none)
    (h4 : takeLit ", \"settings\": [".data cs2 = some cs3)
    (h5 : parseEntriesF cs3.length cs3 = some (es, cs4))
    (h6 : parseSidClose cs4 = some (sid, rest)) :
    parseFrame cs = some (.settings sid es, rest) := by
  simp only [parseFrame, h1, h2, h3, h4, h5, h6]

theorem parseFrame_other_some_step {cs cs1 cs2 cs3 cs4 rest : List Char} {ft : String}
    {n : Int}
    (h1 : takeLit (Char.ofNat 123 :: "\"frame_type\": ".data) cs = some cs1)
    (h2 : parseJStr cs1 = some (ft, cs2))
    (h3 : takeLit [Char.ofNat 125] cs2 = none)
    (h4 : takeLit ", \"settings\": [".data cs2 = none)
    (h5 : takeLit ", \"stream_id\": ".data cs2 = some cs3)
    (h6 : parseInt cs3 = some (n, cs4))
    (h7 : takeLit [Char.ofNat 125] cs4 = some rest) :
    parseFrame cs = some (.other ft (some n), rest) := by
  simp only [parseFrame, h1, h2, h3, h4, h5, h6, h7]

theorem parseFrame_wu_some_step {cs cs1 cs2 cs3 cs4 cs5 cs6 rest : List Char} {ft : String}
    {n m : Int}
    (h1 : takeLit (Char.ofNat 123 :: "\"frame_type\": ".data) cs = some cs1)
    (h2 : parseJStr cs1 = some (ft, cs2))
    (h3 : takeLit [Char.ofNat 125] cs2 = none)
    (h4 : takeLit ", \"settings\": [".data cs2 = none)
    (h5 : takeLit ", \"stream_id\": ".data cs2 = some cs3)
    (h6 : parseInt cs3 = some (n, cs4))
    (h7 : takeLit [Char.ofNat 125] cs4 = none)
    (h8 : takeLit ", \"window_size_increment\": ".data cs4 = some cs5)
    (h9 : parseInt cs5 = some (m, cs6))
    (h10 : takeLit [Char.ofNat 125] cs6 = some rest) :
    parseFrame cs = some (.windowUpdate (some n) m, rest) := by
  simp only [parseFrame, h1, h2, h3, h4, h5, h6, h7, h8, h9, h10]

theorem parseFrame_wu_none_step {cs cs1 cs2 cs3 cs4 rest : List Char} {ft : String}
    {m : Int}
    (h1 : takeLit (Char.ofNat 123 :: "\"frame_type\": ".data) cs = some cs1)
    (h2 : parseJStr cs1 = some (ft, cs2))
    (h3 : takeLit [Char.ofNat 125] cs2 = none)
    (h4 : takeLit ", \"settings\": [".data cs2 = none)
    (h5 : takeLit ", \"stream_id\": ".data cs2 = none)
    (h6 : takeLit ", \"window_size_increment\": ".data cs2 = some cs3)
    (h7 : parseInt cs3 = some (m, cs4))
    (h8 : takeLit [Char.ofNat 125] cs4 = some rest) :
    parseFrame cs = some (.windowUpdate none m, rest) := by
  simp only [parseFrame, h1, h2, h3, h4, h5, h6, h7, h8]

theorem parseFrame_headers_step {cs cs1 cs2 cs3 cs4 rest : List Char} {ft : String}
    {phs : List String} {sid : Option Int}
    (h1 : takeLit (Char.ofNat 123 :: "\"frame_type\": ".data) cs = some cs1)
    (h2 : parseJStr cs1 = some (ft, cs2))
    (h3 : takeLit [Char.ofNat 125] cs2 = none)
    (h4 : takeLit ", \"settings\": [".data cs2 = none)
    (h5 : takeLit ", \"stream_id\": ".data cs2 = none)
    (h6 : takeLit ", \"window_size_increment\": ".data cs2 = none)
    (h7 : takeLit ", \"pseudo_headers\": [".data cs2 = some cs3)
    (h8 : parsePHListF cs3.length cs3 = some (phs, cs4))
    (h9 : parseSidClose cs4 = some (sid, rest)) :
    parseFrame cs = some (.headers sid phs, rest) := by
  simp only [parseFrame, h1, h2, h3, h4, h5, h6, h7, h8, h9]

theorem parseFrame_priority_step {cs cs1 cs2 cs3 cs4 cs5 cs6 cs7 cs8 cs9 rest : List Char}
    {ft : String} {d w : Int} {e : Bool} {sid : Option Int}
    (h1 : takeLit (Char.ofNat 123 :: "\"frame_type\": ".data) cs = some cs1)
    (h2 : parseJStr cs1 = some (ft, cs2))
    (h3 : takeLit [Char.ofNat 125] cs2 = none)
    (h4 : takeLit ", \"settings\": [".data cs2 = none)
    (h5 : takeLit ", \"stream_id\": ".data cs2 = none)
    (h6 : takeLit ", \"window_size_increment\": ".data cs2 = none)
    (h7 : takeLit ", \"pseudo_headers\": [".data cs2 = none)
    (h8 : takeLit (", \"priority\": ".data ++
      (Char.ofNat 123 :: "\"dep_stream_id\": ".data)) cs2 = some cs3)
    (h9 : parseInt cs3 = some (d, cs4))
    (h10 : takeLit ", \"exclusive\": ".data cs4 = some cs5)
    (h11 : parseBool cs5 = some (e, cs6))
    (h12 : takeLit ", \"weight\": ".data cs6 = some cs7)
    (h13 : parseInt cs7 = some (w, cs8))
    (h14 : takeLit [Char.ofNat 125] cs8 = some cs9)
    (h15 : parseSidClose cs9 = some (sid, rest)) :
    parseFrame cs = some (.priority sid d w e, rest) := by
  simp only [parseFrame, h1, h2, h3, h4, h5, h6, h7, h8, h9, h10, h11, h12, h13, h14, h15]

theorem parseFrame_enc (f : Frame) (rest : List Char) :
    parseFrame (pyEncode (frameToDict f) ++ rest) = some (f, rest) := by
  cases f with
  | settings sid es =>
    have hshape : pyEncode (frameToDict (.settings sid es)) ++ rest =
        (Char.ofNat 123 :: "\"frame_type\": ".data) ++ (encStrChars "SETTINGS" ++
          (", \"settings\": [".data ++ (joinSep commaSp (es.map entryChars) ++
            (']' :: (sidTailChars sid ++ rest))))) := by
      rw [frameEnc_settings]
      simp [List.append_assoc]
    rw [hshape]
    have hlen : es.length <
        (joinSep commaSp (es.map entryChars) ++
          (']' :: (sidTailChars sid ++ rest))).length := by
      have hj := joinSep_commaSp_length (es.map entryChars) (by
        intro x hx
        obtain ⟨e, _, rfl⟩ := List.mem_map.mp hx
        exact entryChars_ne_nil e)
      simp only [List.length_map] at hj
      simp only [List.length_append, List.length_cons]
      omega
    exact parseFrame_settings_step (takeLit_append _ _) (parseJStr_enc "SETTINGS" _)
      rfl (takeLit_append _ _) (parseEntriesF_enc es _ _ hlen) (parseSidClose_enc sid rest)
  | windowUpdate sid w =>
    cases sid with
    | some n =>
      have hshape : pyEncode (frameToDict (.windowUpdate (some n) w)) ++ rest =
          (Char.ofNat 123 :: "\"frame_type\": ".data) ++ (encStrChars "WINDOW_UPDATE" ++
            (", \"stream_id\": ".data ++ (intChars n ++
              (", \"window_size_increment\": ".data ++
                (intChars w ++ ([Char.ofNat 125] ++ rest)))))) := by
        rw [frameEnc_wu_some]
        simp [List.append_assoc]
      rw [hshape]
      exact parseFrame_wu_some_step (takeLit_append _ _) (parseJStr_enc "WINDOW_UPDATE" _)
        rfl rfl (takeLit_append _ _)
        (parseInt_intChars n _ (head_not_digit rfl (by decide)))
        rfl (takeLit_append _ _)
        (parseInt_intChars w _ (head_not_digit rfl (by decide)))
        (takeLit_append _ _)
    | none =>
      have hshape : pyEncode (frameToDict (.windowUpdate none w)) ++ rest =
          (Char.ofNat 123 :: "\"frame_type\": ".data) ++ (encStrChars "WINDOW_UPDATE" ++
            (", \"window_size_increment\": ".data ++
              (intChars w ++ ([Char.ofNat 125] ++ rest)))) := by
        rw [frameEnc_wu_none]
        simp [List.append_assoc]
      rw [hshape]
      exact parseFrame_wu_none_step (takeLit_append _ _) (parseJStr_enc "WINDOW_UPDATE" _)
        rfl rfl rfl (takeLit_append _ _)
        (parseInt_intChars w _ (head_not_digit rfl (by decide)))
        (takeLit_append _ _)
  | headers sid ph =>
    have hshape : pyEncode (frameToDict (.headers sid ph)) ++ rest =
        (Char.ofNat 123 :: "\"frame_type\": ".data) ++ (encStrChars "HEADERS" ++
          (", \"pseudo_headers\": [".data ++ (joinSep commaSp (ph.map encStrChars) ++
            (']' :: (sidTailChars sid ++ rest))))) := by
      rw [frameEnc_headers]
      simp [List.append_assoc]
    rw [hshape]
    have hlen : ph.length <
        (joinSep commaSp (ph.map encStrChars) ++
          (']' :: (sidTailChars sid ++ rest))).length := by
      have hj := joinSep_commaSp_length (ph.map encStrChars) (by
        intro x hx
        obtain ⟨p, _, rfl⟩ := List.mem_map.mp hx
        exact encStrChars_ne_nil p)
      simp only [List.length_map] at hj
      simp only [List.length_append, List.length_cons]
      omega
    exact parseFrame_headers_step (takeLit_append _ _) (parseJStr_enc "HEADERS" _)
      rfl rfl rfl rfl (takeLit_append _ _) (parsePHListF_enc ph _ _ hlen)
      (parseSidClose_enc sid rest)
  | priority sid d w e =>
    have hshape : pyEncode (frameToDict (.priority sid d w e)) ++ rest =
        (Char.ofNat 123 :: "\"frame_type\": ".data) ++ (encStrChars "PRIORITY" ++
          ((", \"priority\": ".data ++ (Char.ofNat 123 :: "\"dep_stream_id\": ".data)) ++
            (intChars d ++ (", \"exclusive\": ".data ++
              ((if e then "true".data else "false".data) ++ (", \"weight\": ".data ++
                (intChars w ++ ([Char.ofNat 125] ++ (sidTailChars sid ++ rest))))))))) := by
      rw [frameEnc_priority]
      simp [List.append_assoc]
    rw [hshape]
    exact parseFrame_priority_step (takeLit_append _ _) (parseJStr_enc "PRIORITY" _)
      rfl rfl rfl rfl rfl (takeLit_append _ _)
      (parseInt_intChars d _ (head_not_digit rfl (by decide)))
      (takeLit_append _ _) (parseBool_enc e _) (takeLit_append _ _)
      (parseInt_intChars w _ (head_not_digit rfl (by decide)))
      (takeLit_append _ _) (parseSidClose_enc sid rest)
  | other ft sid =>
    cases sid with
    | none =>
      have hshape : pyEncode (frameToDict (.other ft none)) ++ rest =
          (Char.ofNat 123 :: "\"frame_type\": ".data) ++
            (encStrChars ft ++ ([Char.ofNat 125] ++ rest)) := by
        rw [frameEnc_other]
        simp [sidTailChars, List.append_assoc]
      rw [hshape]
      exact parseFrame_other_none_step (takeLit_append _ _) (parseJStr_enc ft _)
        (takeLit_append _ _)
    | some n =>
      have hshape : pyEncode (frameToDict (.other ft (some n))) ++ rest =
          (Char.ofNat 123 :: "\"frame_type\": ".data) ++ (encStrChars ft ++
            (", \"stream_id\": ".data ++ (intChars n ++ ([Char.ofNat 125] ++ rest)))) := by
        rw [frameEnc_other]
        simp [sidTailChars, List.append_assoc]
      rw [hshape]
      exact parseFrame_other_some_step (takeLit_append _ _) (parseJStr_enc ft _)
        rfl rfl (takeLit_append _ _)
        (parseInt_intChars n _ (head_not_digit rfl (by decide)))
        (takeLit_append _ _)

theorem frameEnc_ne_nil (f : Frame) : pyEncode (frameToDict f) ≠ [] := by
  cases f with
  | settings sid es => simp [frameEnc_settings]
  | windowUpdate sid w =>
    cases sid with
    | some n => simp [frameEnc_wu_some]
    | none => simp [frameEnc_wu_none]
  | headers sid ph => simp [frameEnc_headers]
  | priority sid d w e => simp [frameEnc_priority]
  | other ft sid => simp [frameEnc_other]

theorem takeLit_rb_frameEnc (f : Frame) (X : List Char) :
    takeLit [']'] (pyEncode (frameToDict f) ++ X) = none := by
  cases f with
  | settings sid es => rw [frameEnc_settings]; rfl
  | windowUpdate sid w =>
    cases sid with
    | some n => rw [frameEnc_wu_some]; rfl
    | none => rw [frameEnc_wu_none]; rfl
  | headers sid ph => rw [frameEnc_headers]; rfl
  | priority sid d w e => rw [frameEnc_priority]; rfl
  | other ft sid => rw [frameEnc_other]; rfl

theorem parseFramesF_done_step (f : Nat) (cs rest : List Char)
    (h : takeLit [']'] cs = some rest) :
    parseFramesF (f + 1) cs = some ([], rest) := by
  simp only [parseFramesF, h]

theorem parseFramesF_last_step (f : Nat) (cs rest : List Char) (fr : Frame)
    (h1 : takeLit [']'] cs = none)
    (h2 : parseFrame cs = some (fr, ']' :: rest)) :
    parseFramesF (f + 1) cs = some ([fr], rest) := by
  simp only [parseFramesF, h1, h2]

theorem parseFramesF_cons_step (f : Nat) (cs cs3 rest : List Char) (fr : Frame)
    (frs : List Frame)
    (h1 : takeLit [']'] cs = none)
    (h2 : parseFrame cs = some (fr, ',' :: ' ' :: cs3))
    (h3 : parseFramesF f cs3 = some (frs, rest)) :
    parseFramesF (f + 1) cs = some (fr :: frs, rest) := by
  simp only [parseFramesF, h1, h2, h3]

theorem parseFramesF_enc : ∀ (fs : List Frame) (fuel : Nat) (tail : List Char),
    fs.length < fuel →
    parseFramesF fuel (joinSep commaSp (fs.map (fun f => pyEncode (frameToDict f))) ++
      (']' :: tail)) = some (fs, tail) := by
  intro fs
  induction fs with
  | nil =>
    intro fuel tail hf
    cases fuel with
    | zero => omega
    | succ f => exact parseFramesF_done_step f _ tail rfl
  | cons fr frs ih =>
    intro fuel tail hf
    cases fuel with
    | zero => omega
    | succ f =>
      cases frs with
      | nil =>
        have hshape : joinSep commaSp (([fr] : List Frame).map
            (fun f => pyEncode (frameToDict f))) ++ (']' :: tail) =
            pyEncode (frameToDict fr) ++ (']' :: tail) := by
          simp [joinSep]
        rw [hshape]
        exact parseFramesF_last_step f _ tail fr (takeLit_rb_frameEnc fr _)
          (parseFrame_enc fr (']' :: tail))
      | cons fr2 frs2 =>
        have hshape : joinSep commaSp ((fr :: fr2 :: frs2).map
            (fun f => pyEncode (frameToDict f))) ++ (']' :: tail) =
            pyEncode (frameToDict fr) ++ (',' :: ' ' ::
              (joinSep commaSp ((fr2 :: frs2).map (fun f => pyEncode (frameToDict f))) ++
                (']' :: tail))) := by
          simp [joinSep, commaSp, List.append_assoc]
        rw [hshape]
        exact parseFramesF_cons_step f _ _ tail fr (fr2 :: frs2)
          (takeLit_rb_frameEnc fr _) (parseFrame_enc fr _)
          (ih f tail (by simp only [List.length_cons] at hf ⊢; omega))

theorem parseSigChars_step {cs cs1 : List Char} {fs : List Frame}
    (h1 : takeLit (Char.ofNat 123 :: "\"frames\": [".data) cs = some cs1)
    (h2 : parseFramesF cs1.length cs1 = some (fs, [Char.ofNat 125])) :
    parseSigChars cs = some fs := by
  simp only [parseSigChars, h1, h2, if_true]

theorem parseSigChars_enc (s : HTTP2Signature) :
    parseSigChars (pyEncode (sigToDict s)) = some s.frames := by
  rw [sigEnc]
  have hlen : s.frames.length <
      (joinSep commaSp (s.frames.map (fun f => pyEncode (frameToDict f))) ++
        (']' :: [Char.ofNat 125])).length := by
    have hj := joinSep_commaSp_length
      (s.frames.map (fun f => pyEncode (frameToDict f))) (by
        intro x hx
        obtain ⟨f, _, rfl⟩ := List.mem_map.mp hx
        exact frameEnc_ne_nil f)
    simp only [List.length_map] at hj
    simp only [List.length_append, List.length_cons]
    omega
  exact parseSigChars_step (takeLit_append _ _) (parseFramesF_enc s.frames _ _ hlen)

theorem canonicalize_inj (s1 s2 : HTTP2Signature)
    (h : s1.canonicalize = s2.canonicalize) : s1 = s2 := by
  have h1 : pyEncode (sigToDict s1) = pyEncode (sigToDict s2) := by
    have h0 := congrArg String.data h
    simpa [HTTP2Signature.canonicalize] using h0
  have h2 : some s1.frames = some s2.frames := by
    rw [← parseSigChars_enc s1, ← parseSigChars_enc s2, h1]
  cases s1
  cases s2
  simp only [Option.some.injEq] at h2
  simp only [h2]

/-! ## The hash: digest shape and the pigeonhole collision -/

theorem sha1_length (msg : List Nat) : (sha1 msg).length = 20 := by
  unfold sha1
  simp [wordBytes]

theorem sha1_bytes_lt (msg : List Nat) : ∀ b ∈ sha1 msg, b < 256 := by
  unfold sha1
  intro b hb
  simp only [wordBytes, List.mem_append, List.mem_cons, List.not_mem_nil, or_false] at hb
  rcases hb with ((h|h|h|h)|(h|h|h|h))|(h|h|h|h)|(h|h|h|h)|(h|h|h|h) <;> omega

theorem sig_replicate_inj : Function.Injective
    (fun n => HTTP2Signature.mk (List.replicate n (Frame.other "" none))) := by
  intro a b h
  simpa using congrArg (fun s => s.frames.length) h

instance : Infinite HTTP2Signature := Infinite.of_injective _ sig_replicate_inj

theorem getD_lt_256 {l : List Nat} (h : ∀ b ∈ l, b < 256) (i : Nat) :
    l.getD i 0 < 256 := by
  by_cases hi : i < l.length
  · rw [List.getD_eq_getElem l 0 hi]
    exact h _ (List.getElem_mem hi)
  · rw [List.getD_eq_default l 0 (by omega)]
    omega

def hashVec (s : HTTP2Signature) (i : Fin 20) : Fin 256 :=
  ⟨(HTTP2Signature.hash s).getD i.val 0,
    getD_lt_256 (sha1_bytes_lt (utf8Encode s.canonicalize)) i.val⟩

theorem hash_collision : ∃ s1 s2 : HTTP2Signature,
    s1 ≠ s2 ∧ HTTP2Signature.hash s1 = HTTP2Signature.hash s2 := by
  obtain ⟨s1, s2, hne, heq⟩ := Finite.exists_ne_map_eq_of_infinite hashVec
  refine ⟨s1, s2, hne, ?_⟩
  have hl1 : (HTTP2Signature.hash s1).length = 20 := sha1_length _
  have hl2 : (HTTP2Signature.hash s2).length = 20 := sha1_length _
  apply List.ext_getElem (by rw [hl1, hl2])
  intro i hi1 hi2
  have hfi := congrFun heq ⟨i, by omega⟩
  have hv := congrArg Fin.val hfi
  simp only [hashVec] at hv
  rw [List.getD_eq_getElem _ 0 hi1, List.getD_eq_getElem _ 0 hi2] at hv
  exact hv

/-- C1 counterexample: the claim's chain of equivalences says in particular
that equal hashes imply equal canonical forms (and hence equal frame
sequences).  SHA-1 maps the infinitely many signatures into the 256 ^ 20
possible 20-byte digests, so two distinct signatures share a digest while
their canonical forms differ; the full equivalence chain is therefore
false. -/
theorem C1_hash_iff_counterexample :
    ¬ (∀ s1 s2 : HTTP2Signature,
        (HTTP2Signature.hash s1 = HTTP2Signature.hash s2 ↔
          s1.canonicalize = s2.canonicalize) ∧
        (s1.canonicalize = s2.canonicalize ↔ s1.frames = s2.frames)) := by
  intro hall
  obtain ⟨s1, s2, hne, heq⟩ := hash_collision
  exact hne (canonicalize_inj s1 s2 ((hall s1 s2).1.mp heq))

/-- C1 (amended): canonical forms are equal exactly when the underlying
frame sequences are identical field for field and in order; equal canonical
forms give equal hashes; and the hash is the SHA-1 digest of the canonical
form's UTF-8 bytes, 20 bytes long.  Only the converse hash direction of the
claim (collision freedom of SHA-1) fails. -/
theorem C1_canonical_iff_frames (s1 s2 : HTTP2Signature) :
    (s1.canonicalize = s2.canonicalize ↔ s1.frames = s2.frames) ∧
    (s1.canonicalize = s2.canonicalize →
      HTTP2Signature.hash s1 = HTTP2Signature.hash s2) ∧
    HTTP2Signature.hash s1 = sha1 (utf8Encode s1.canonicalize) ∧
    (HTTP2Signature.hash s1).length = 20 := by
  refine ⟨⟨fun h => ?_, fun h => ?_⟩, fun h => ?_, rfl, sha1_length _⟩
  · exact congrArg HTTP2Signature.frames (canonicalize_inj s1 s2 h)
  · have hs : s1 = s2 := by
      cases s1
      cases s2
      simpa using h
    rw [hs]
  · simp only [HTTP2Signature.hash, h]
